import Mathlib

/-!
Verification of the WhoScored match-centre extraction and normalization engine
(source file `whoscored_matchcenter.py`) against its design document.

The embedded JSON-like payload is modelled by the inductive `JVal`; numeric
leaves are exact rationals.  The source manipulates Python ints and floats;
where binary floating point could diverge from exact rational arithmetic the
divergence is noted in a local comment, and no theorem below depends on such a
point.  Python `dict`s are modelled as association lists with unique keys kept
in insertion order (Python 3.7+ semantics); `dict` update keeps the original
position of an existing key and replaces its value, which `objUpsert` and
`intUpsert` reproduce.
-/

namespace WhoscoredMC

/-- Generic JSON-like value tree (maps with string keys, ordered arrays,
scalars), as produced by `json.loads` in the source. -/
inductive JVal where
  | null
  | bool (b : Bool)
  | num (q : ℚ)
  | str (s : String)
  | arr (xs : List JVal)
  | obj (kvs : List (String × JVal))

/-- Association-list lookup, first match; models `dict.get(key)` on a dict
whose keys are unique. -/
def assocGet (kvs : List (String × JVal)) (key : String) : Option JVal :=
  match kvs with
  | [] => none
  | (k, v) :: rest => if k = key then some v else assocGet rest key

/-- `x.get(key)` for a JSON map; a lookup on a non-map value is modelled as
absent (in the source such a lookup would raise and abort the whole run, so no
output row is ever produced from it). -/
def jget (v : JVal) (key : String) : Option JVal :=
  match v with
  | .obj kvs => assocGet kvs key
  | _ => none

/-- Python truthiness of a payload value. -/
def jTruthy : JVal → Bool
  | .null => false
  | .bool b => b
  | .num q => decide (q ≠ 0)
  | .str s => decide (s ≠ "")
  | .arr xs => !xs.isEmpty
  | .obj kvs => !kvs.isEmpty

/-- `a or b` for payload values. -/
def jOrV (a b : JVal) : JVal := if jTruthy a then a else b

/-- `x.get(k) or d` (the lookup may be absent). -/
def jgetOr (v : JVal) (key : String) (d : JVal) : JVal :=
  match jget v key with
  | some w => jOrV w d
  | none => d

/-- `a or b` where both operands come from `dict.get` (either may be `None`). -/
def pyOrOpt (a b : Option JVal) : Option JVal :=
  match a with
  | some v => if jTruthy v then some v else b
  | none => b

/-- The elements of a payload array; a non-array is modelled as empty (the
source would raise while iterating a non-iterable and abort the run). -/
def jItems : JVal → List JVal
  | .arr xs => xs
  | _ => []

/-- Truncation of a rational toward zero, Python `int(float)` semantics.
Implemented on the numerator/denominator projections so that the kernel can
evaluate it. -/
def ratTrunc (q : ℚ) : Int :=
  if 0 ≤ q.num then (q.num.natAbs / q.den : Nat) else -((q.num.natAbs / q.den : Nat) : Int)

def isDigitCh (c : Char) : Bool := decide ('0' ≤ c) && decide (c ≤ '9')

def digitVal (c : Char) : Nat := c.toNat - '0'.toNat

def digitsToNat (ds : List Char) : Nat :=
  ds.foldl (fun acc c => acc * 10 + digitVal c) 0

/-- ASCII whitespace, the relevant subset of what Python strips. -/
def isWsCh (c : Char) : Bool :=
  decide (c = ' ') || decide (c = '\t') || decide (c = '\n') || decide (c = '\r')
    || decide (c = '\x0b') || decide (c = '\x0c')

/-- `str.strip()` on a character list. -/
def trimChars (cs : List Char) : List Char :=
  ((cs.dropWhile isWsCh).reverse.dropWhile isWsCh).reverse

/-- Python `int(str)`: optional surrounding whitespace, optional sign, one or
more digits, nothing else. -/
def parseIntStr (s : String) : Option Int :=
  let cs := trimChars s.toList
  match cs with
  | '-' :: ds =>
    if !ds.isEmpty && ds.all isDigitCh then some (-(digitsToNat ds : Int)) else none
  | '+' :: ds =>
    if !ds.isEmpty && ds.all isDigitCh then some (digitsToNat ds : Int) else none
  | ds =>
    if !ds.isEmpty && ds.all isDigitCh then some (digitsToNat ds : Int) else none

/-- Decimal-notation parse of a string as a rational; models Python
`float(str)` on plain decimal notation (optional sign, integer part, optional
fraction, optional exponent).  Special floats (`nan`, `inf`, hex) are modelled
as failures. -/
def parseDecQ (s : String) : Option ℚ :=
  let cs := trimChars s.toList
  let (sgn, cs) : Int × List Char :=
    match cs with
    | '-' :: rest => (-1, rest)
    | '+' :: rest => (1, rest)
    | _ => (1, cs)
  let intDigits := cs.takeWhile isDigitCh
  let cs1 := cs.dropWhile isDigitCh
  let (fracDigits, cs2) : List Char × List Char :=
    match cs1 with
    | '.' :: rest => (rest.takeWhile isDigitCh, rest.dropWhile isDigitCh)
    | _ => ([], cs1)
  if intDigits.isEmpty && fracDigits.isEmpty then none
  else
    let mant : Int := sgn * (digitsToNat (intDigits ++ fracDigits) : Int)
    let fscale : Nat := fracDigits.length
    match cs2 with
    | [] => some (Rat.divInt mant (10 ^ fscale))
    | e :: rest =>
      if e = 'e' ∨ e = 'E' then
        let (esgn, rest2) : Int × List Char :=
          match rest with
          | '-' :: r => (-1, r)
          | '+' :: r => (1, r)
          | _ => (1, rest)
        let eDigits := rest2.takeWhile isDigitCh
        let rest3 := rest2.dropWhile isDigitCh
        if eDigits.isEmpty ∨ !rest3.isEmpty then none
        else
          let ex : Int := esgn * (digitsToNat eDigits : Int) - (fscale : Int)
          if 0 ≤ ex then some (Rat.divInt (mant * (10 ^ ex.toNat : Nat)) 1)
          else some (Rat.divInt mant (10 ^ (-ex).toNat))
      else none

/-- Python `int(x)` on a payload value; `none` models a raised exception. -/
def pyIntOpt : JVal → Option Int
  | .num q => some (ratTrunc q)
  | .bool b => some (if b then 1 else 0)
  | .str s => parseIntStr s
  | _ => none

/-- Python `int(k)` on a string (dict key). -/
def pyIntStr (s : String) : Option Int := parseIntStr s

/-- `_safe_int` of the source: `int(x)`, falling back to `int(float(str(x)))`,
with all exceptions converted to `None`. -/
def safe_int : Option JVal → Option Int
  | none => none
  | some v =>
    match v with
    | .null => none
    | .num q => some (ratTrunc q)
    | .bool b => some (if b then 1 else 0)
    | .str s =>
      match parseIntStr s with
      | some i => some i
      | none =>
        match parseDecQ s with
        | some q => some (ratTrunc q)
        | none => none
    | .arr _ => none
    | .obj _ => none

/-- `_safe_float` of the source: `float(x)` with exceptions converted to
`None`. -/
def safe_float : Option JVal → Option ℚ
  | none => none
  | some v =>
    match v with
    | .num q => some q
    | .bool b => some (if b then 1 else 0)
    | .str s => parseDecQ s
    | _ => none

/-- `float(x)` on a payload value; `none` models a raised exception. -/
def pyFloatOpt : JVal → Option ℚ
  | .num q => some q
  | .bool b => some (if b then 1 else 0)
  | .str s => parseDecQ s
  | _ => none

/-- Python `str(x)` for an optional string cell: `None` prints as `"None"`. -/
def pyStr : Option String → String
  | some s => s
  | none => "None"

/-- Whether `needle` is a prefix of `hay` (character lists). -/
def matchesAt (needle hay : List Char) : Bool :=
  match needle, hay with
  | [], _ => true
  | _ :: _, [] => false
  | a :: as, b :: bs => a = b && matchesAt as bs

/-- Python `needle in hay` substring containment. -/
def hasSub (needle : List Char) : List Char → Bool
  | [] => needle.isEmpty
  | c :: rest => matchesAt needle (c :: rest) || hasSub needle rest

def strContains (hay needle : String) : Bool := hasSub needle.toList hay.toList

/-! ### The balanced-literal scanner (`_extract_balanced_object`, lines 151-172)

`scanBal` is the character-by-character loop of `_extract_balanced_object`,
generalized over the open/close delimiter pair because the source repeats the
very same loop inline for `[`/`]` when slicing timeline arrays (lines 215-236).
It returns the length of the scanned prefix up to and including the closing
delimiter that brings the depth counter back to zero, or `none` when the input
ends first (the source raises `ValueError` there). -/
def scanBal (oc cc : Char) : List Char → Bool → Bool → Char → Int → Option Nat
  | [], _, _, _, _ => none
  | c :: cs, inStr, esc, quote, depth =>
    if inStr then
      if esc then (scanBal oc cc cs true false quote depth).map (· + 1)
      else if c = '\\' then (scanBal oc cc cs true true quote depth).map (· + 1)
      else if c = quote then (scanBal oc cc cs false false quote depth).map (· + 1)
      else (scanBal oc cc cs true false quote depth).map (· + 1)
    else
      if c = '"' ∨ c = '\'' then (scanBal oc cc cs true false c depth).map (· + 1)
      else if c = oc then (scanBal oc cc cs false false quote (depth + 1)).map (· + 1)
      else if c = cc then
        (if depth - 1 = 0 then some 1
         else (scanBal oc cc cs false false quote (depth - 1)).map (· + 1))
      else (scanBal oc cc cs false false quote depth).map (· + 1)

/-- Balanced `{...}` extraction starting at the head of `l`. -/
def extractBalAt (l : List Char) : Option (List Char) :=
  (scanBal '{' '}' l false false ' ' 0).map (fun k => l.take k)

/-- Balanced `[...]` extraction starting at the head of `l` (the inline loop of
lines 215-236). -/
def extractBalArrAt (l : List Char) : Option (List Char) :=
  (scanBal '[' ']' l false false ' ' 0).map (fun k => l.take k)

/-- `_extract_balanced_object(text, start_idx)`; `none` models the raised
`ValueError` when the braces never balance. -/
def _extract_balanced_object (text : List Char) (startIdx : Nat) : Option (List Char) :=
  extractBalAt (text.drop startIdx)

/-! ### A declarative grammar of escape-respecting balanced objects

`StrBody q cs` holds when `cs` is the body of a string literal quoted by `q`:
no unescaped occurrence of `q`, every backslash consuming the following
character.  `BalItems xs` holds when `xs` is a properly nested,
escape-respecting sequence of plain characters, complete string literals and
complete nested `{...}` objects.  `BalancedObj b` holds when `b` is an opening
brace followed by such a sequence and its matching closing brace.  These are
spec-level notions, independent of the scanner. -/
inductive StrBody : Char → List Char → Prop where
  | nil : StrBody q []
  | esc (c : Char) : StrBody q cs → StrBody q ('\\' :: c :: cs)
  | chr : c ≠ q → c ≠ '\\' → StrBody q cs → StrBody q (c :: cs)

inductive BalItems : List Char → Prop where
  | nil : BalItems []
  | plain : c ≠ '{' → c ≠ '}' → c ≠ '"' → c ≠ '\'' → BalItems xs → BalItems (c :: xs)
  | strlit : (q = '"' ∨ q = '\'') → StrBody q body → BalItems xs →
      BalItems (q :: (body ++ q :: xs))
  | obj : BalItems ys → BalItems xs → BalItems ('{' :: (ys ++ '}' :: xs))

def BalancedObj (b : List Char) : Prop :=
  ∃ ys, BalItems ys ∧ b = '{' :: (ys ++ ['}'])

theorem mapAdd_mapAdd (o : Option Nat) (a b : Nat) :
    (o.map (· + a)).map (· + b) = o.map (· + (a + b)) := by
  cases o <;> simp <;> omega

theorem mapAdd_congr (o : Option Nat) (a b : Nat) (h : a = b) :
    o.map (· + a) = o.map (· + b) := by rw [h]

theorem scanBal_step_esc (oc cc c : Char) (cs : List Char) (q : Char) (d : Int) :
    scanBal oc cc (c :: cs) true true q d
      = (scanBal oc cc cs true false q d).map (· + 1) := by
  simp [scanBal]

theorem scanBal_step_bslash (oc cc : Char) (cs : List Char) (q : Char) (d : Int) :
    scanBal oc cc ('\\' :: cs) true false q d
      = (scanBal oc cc cs true true q d).map (· + 1) := by
  simp [scanBal]

theorem scanBal_step_closequote (oc cc : Char) (cs : List Char) (q : Char)
    (hq : q ≠ '\\') (d : Int) :
    scanBal oc cc (q :: cs) true false q d
      = (scanBal oc cc cs false false q d).map (· + 1) := by
  simp [scanBal, hq]

theorem scanBal_step_strchr (oc cc c : Char) (cs : List Char) (q : Char)
    (h1 : c ≠ '\\') (h2 : c ≠ q) (d : Int) :
    scanBal oc cc (c :: cs) true false q d
      = (scanBal oc cc cs true false q d).map (· + 1) := by
  simp [scanBal, h1, h2]

theorem scanBal_step_openquote (oc cc c : Char) (cs : List Char) (q : Char)
    (h : c = '"' ∨ c = '\'') (d : Int) :
    scanBal oc cc (c :: cs) false false q d
      = (scanBal oc cc cs true false c d).map (· + 1) := by
  rcases h with h | h <;> subst h <;> simp [scanBal]

theorem scanBal_step_open (oc cc : Char) (cs : List Char) (q : Char)
    (hnq : ¬(oc = '"' ∨ oc = '\'')) (d : Int) :
    scanBal oc cc (oc :: cs) false false q d
      = (scanBal oc cc cs false false q (d + 1)).map (· + 1) := by
  simp [scanBal, hnq]

theorem scanBal_step_close_hit (oc cc : Char) (cs : List Char) (q : Char)
    (hnq : ¬(cc = '"' ∨ cc = '\'')) (hno : cc ≠ oc) (d : Int) (hd : d = 1) :
    scanBal oc cc (cc :: cs) false false q d = some 1 := by
  subst hd
  simp [scanBal, hnq, hno]

theorem scanBal_step_close_cont (oc cc : Char) (cs : List Char) (q : Char)
    (hnq : ¬(cc = '"' ∨ cc = '\'')) (hno : cc ≠ oc) (d : Int) (hd : d ≠ 1) :
    scanBal oc cc (cc :: cs) false false q d
      = (scanBal oc cc cs false false q (d - 1)).map (· + 1) := by
  have hne : ¬(d - 1 = 0) := by omega
  simp [scanBal, hnq, hno, hne]

theorem scanBal_step_plain (oc cc c : Char) (cs : List Char) (q : Char)
    (hnq : ¬(c = '"' ∨ c = '\'')) (ho : c ≠ oc) (hc : c ≠ cc) (d : Int) :
    scanBal oc cc (c :: cs) false false q d
      = (scanBal oc cc cs false false q d).map (· + 1) := by
  simp [scanBal, hnq, ho, hc]

theorem scanBal_quote_irrel (oc cc : Char) :
    ∀ (cs : List Char) (d : Int) (q q' : Char),
    scanBal oc cc cs false false q d = scanBal oc cc cs false false q' d := by
  intro cs
  induction cs with
  | nil => intro d q q'; rfl
  | cons c cs ih =>
    intro d q q'
    simp only [scanBal, Bool.false_eq_true, if_false]
    split_ifs <;> first | rfl | exact congrArg _ (ih _ _ _)

theorem scanBal_string (oc cc : Char) {q : Char} {body : List Char}
    (hb : StrBody q body) (hq : q ≠ '\\') :
    ∀ (rest : List Char) (d : Int),
    scanBal oc cc (body ++ q :: rest) true false q d
      = (scanBal oc cc rest false false q d).map (· + (body.length + 1)) := by
  induction hb with
  | nil =>
    intro rest d
    rw [List.nil_append, scanBal_step_closequote oc cc rest _ hq d]
    exact mapAdd_congr _ _ _ (by simp)
  | esc c hsb ih =>
    intro rest d
    simp only [List.cons_append]
    rw [scanBal_step_bslash, scanBal_step_esc, ih hq rest d, mapAdd_mapAdd, mapAdd_mapAdd]
    exact mapAdd_congr _ _ _ (by simp only [List.length_cons] <;> omega)
  | chr h1 h2 hsb ih =>
    intro rest d
    simp only [List.cons_append]
    rw [scanBal_step_strchr oc cc _ _ _ h2 h1, ih hq rest d, mapAdd_mapAdd]
    exact mapAdd_congr _ _ _ (by simp only [List.length_cons] <;> omega)

theorem scanBal_items {xs : List Char} (h : BalItems xs) :
    ∀ (rest : List Char) (d : Int) (q : Char), 1 ≤ d →
    scanBal '{' '}' (xs ++ rest) false false q d
      = (scanBal '{' '}' rest false false q d).map (· + xs.length) := by
  induction h with
  | nil =>
    intro rest d q _
    rw [List.nil_append]
    cases hr : scanBal '{' '}' rest false false q d <;> simp [hr]
  | plain h1 h2 h3 h4 hxs ih =>
    intro rest d q hd
    rename_i c xs'
    have hnq : ¬(c = '"' ∨ c = '\'') := by simp [h3, h4]
    rw [List.cons_append, scanBal_step_plain '{' '}' c _ q hnq h1 h2 d,
        ih rest d q hd, mapAdd_mapAdd]
    exact mapAdd_congr _ _ _ (by simp only [List.length_cons] <;> omega)
  | strlit hql hsb hxs ih =>
    intro rest d q hd
    rename_i q' body xs'
    have hassoc : (q' :: (body ++ q' :: xs')) ++ rest
        = q' :: (body ++ q' :: (xs' ++ rest)) := by simp
    rw [hassoc]
    have hq' : q' ≠ '\\' := by rcases hql with h | h <;> subst h <;> decide
    rw [scanBal_step_openquote '{' '}' q' _ q hql d,
        scanBal_string '{' '}' hsb hq' (xs' ++ rest) d,
        scanBal_quote_irrel '{' '}' (xs' ++ rest) d q' q,
        ih rest d q hd, mapAdd_mapAdd, mapAdd_mapAdd]
    exact mapAdd_congr _ _ _
      (by simp only [List.length_cons, List.length_append] <;> omega)
  | obj hys hxs ihys ihxs =>
    intro rest d q hd
    rename_i ys xs'
    have hassoc : ('{' :: (ys ++ '}' :: xs')) ++ rest
        = '{' :: (ys ++ '}' :: (xs' ++ rest)) := by simp
    rw [hassoc]
    rw [scanBal_step_open '{' '}' _ q (by decide) d,
        ihys ('}' :: (xs' ++ rest)) (d + 1) q (by omega),
        scanBal_step_close_cont '{' '}' _ q (by decide) (by decide) (d + 1) (by omega)]
    have heq : d + 1 - 1 = d := by omega
    rw [heq, ihxs rest d q hd, mapAdd_mapAdd, mapAdd_mapAdd, mapAdd_mapAdd]
    exact mapAdd_congr _ _ _
      (by simp only [List.length_cons, List.length_append] <;> omega)

/-- Claim C1: for every input string and start index pointing at the opening
brace of a properly nested, escape-respecting balanced object, the extractor
returns exactly the substring from that opening brace to its matching closing
brace; brace characters inside quoted string segments (where a backslash
escapes the following character) do not affect the depth count and do not
terminate extraction early.  The grammar `BalancedObj` expresses the
spec-level notion of such an object. -/
theorem extract_balanced_object_spec (pre b rest : List Char) (hb : BalancedObj b) :
    _extract_balanced_object (pre ++ (b ++ rest)) pre.length = some b := by
  obtain ⟨ys, hys, rfl⟩ := hb
  unfold _extract_balanced_object extractBalAt
  rw [List.drop_left]
  have hassoc : ('{' :: (ys ++ ['}'])) ++ rest = '{' :: (ys ++ '}' :: rest) := by simp
  rw [hassoc]
  rw [scanBal_step_open '{' '}' _ ' ' (by decide) 0,
      scanBal_items hys ('}' :: rest) (0 + 1) ' ' (by omega),
      scanBal_step_close_hit '{' '}' rest ' ' (by decide) (by decide) (0 + 1) (by omega)]
  simp only [Option.map_some']
  congr 1
  rw [show (1 + ys.length + 1 : Nat) = ('{' :: (ys ++ ['}'])).length by
    simp only [List.length_cons, List.length_append, List.length_nil] <;> omega]
  rw [← hassoc]
  exact List.take_left ('{' :: (ys ++ ['}'])) rest

/-- Witness for C1 at a concrete input: the quoted segment `"}"` inside the
object contains an unmatched closing brace and does not end the extraction. -/
theorem extract_balanced_object_spec_witness :
    _extract_balanced_object ['a', 'b', '{', 'x', '"', '}', '"', 'y', '}', 'c'] 2
      = some ['{', 'x', '"', '}', '"', 'y', '}'] :=
  extract_balanced_object_spec ['a', 'b'] ['{', 'x', '"', '}', '"', 'y', '}'] ['c']
    ⟨['x', '"', '}', '"', 'y'],
     BalItems.plain (by decide) (by decide) (by decide) (by decide)
       (BalItems.strlit (Or.inl rfl)
         (StrBody.chr (by decide) (by decide) StrBody.nil)
         (BalItems.plain (by decide) (by decide) (by decide) (by decide) BalItems.nil)),
     rfl⟩

/-! ### Qualifier accessors (`_q_has`, `_q_get`, `_q_get_any`, lines 344-359)

A qualifier entry is a map with a `type` sub-map carrying `displayName`, and an
optional `value`.  Entries that are not maps are skipped here; in the source
they would raise `AttributeError` and abort the build, so no derived row is
ever produced from such an event. -/
def qTypeName (q : JVal) : Option String :=
  match jget (jgetOr q "type" (.obj [])) "displayName" with
  | some (.str s) => some s
  | _ => none

def q_has (qs : Option JVal) (name : String) : Bool :=
  match qs with
  | some (.arr l) => l.any (fun q => decide (qTypeName q = some name))
  | _ => false

def qGetGo : List JVal → String → Option JVal
  | [], _ => none
  | q :: rest, name =>
    if qTypeName q = some name then jget q "value" else qGetGo rest name

/-- `_q_get`: the `value` of the first qualifier whose display name matches;
the search stops at the first match even when that entry has no `value`. -/
def q_get (qs : Option JVal) (name : String) : Option JVal :=
  match qs with
  | some (.arr l) => qGetGo l name
  | _ => none

def qGetAnyGo : List JVal → List String → Option JVal
  | [], _ => none
  | q :: rest, names =>
    match qTypeName q with
    | some s => if names.contains s then jget q "value" else qGetAnyGo rest names
    | none => qGetAnyGo rest names

/-- `_q_get_any`: the `value` of the first qualifier whose display name lies in
the alias set. -/
def q_get_any (qs : Option JVal) (names : List String) : Option JVal :=
  match qs with
  | some (.arr l) => qGetAnyGo l names
  | _ => none

/-! ### The atomic-event table (`to_dataframes`, events part, lines 311-336) -/

/-- One row of `df_events`.  String-typed display names are kept as
`Option String` (a non-string `displayName` is modelled as absent); all other
cells keep the raw payload value. -/
structure EventRow where
  match_id : Option JVal := none
  eventId : Option JVal := none
  minute : Option JVal := none
  second : Option JVal := none
  expandedMinute : Option JVal := none
  period : Option JVal := none
  teamId : Option JVal := none
  playerId : Option JVal := none
  x : Option JVal := none
  y : Option JVal := none
  endX : Option JVal := none
  endY : Option JVal := none
  typeValue : Option JVal := none
  typeName : Option String := none
  outcomeValue : Option JVal := none
  outcomeName : Option String := none
  relatedEventId : Option JVal := none
  qualifiers : Option JVal := none

/-- `displayName`-style cell: only a string value is kept. -/
def jStrOpt (v : Option JVal) : Option String :=
  match v with
  | some (.str s) => some s
  | _ => none

/-- One entry of the source event list flattened into an `EventRow`
(lines 316-335). -/
def eventRowOf (matchIdVal : Option JVal) (ev : JVal) : EventRow :=
  let t := jgetOr ev "type" (.obj [])
  let o := jgetOr ev "outcomeType" (.obj [])
  { match_id := matchIdVal
    eventId := pyOrOpt (jget ev "eventId") (jget ev "id")
    minute := jget ev "minute"
    second := jget ev "second"
    expandedMinute := jget ev "expandedMinute"
    period := jget (jgetOr ev "period" (.obj [])) "value"
    teamId := jget ev "teamId"
    playerId := jget ev "playerId"
    x := jget ev "x"
    y := jget ev "y"
    endX := jget ev "endX"
    endY := jget ev "endY"
    typeValue := jget t "value"
    typeName := jStrOpt (jget t "displayName")
    outcomeValue := jget o "value"
    outcomeName := jStrOpt (jget o "displayName")
    relatedEventId := jget ev "relatedEventId"
    qualifiers := jget ev "qualifiers" }

/-- The `events` rows of `to_dataframes` (one row per source event, in source
order). -/
def eventsRowsOf (matchIdVal : Option JVal) (mcd : JVal) : List EventRow :=
  (jItems (jgetOr mcd "events" (.arr []))).map (eventRowOf matchIdVal)

/-! ### Shots (`build_df_shots`, lines 366-429) -/

def _SHOT_TYPES : List String :=
  ["Shot", "Goal", "MissedShots", "SavedShot", "ShotOnPost", "BlockedShot", "OwnGoal"]

def is_shot_row (r : EventRow) : Bool :=
  _SHOT_TYPES.contains (pyStr r.typeName)
  || (q_get r.qualifiers "GoalMouthY").isSome
  || (q_get r.qualifiers "GoalMouthZ").isSome
  || q_has r.qualifiers "ShotType"

/-- The `shot_outcome` classifier (lines 389-406), kept in the source's branch
order. -/
def shot_outcome (r : EventRow) : String :=
  let t := pyStr r.typeName
  let out := r.outcomeName.getD ""
  let qs := r.qualifiers
  if t = "Goal" ∨ q_has qs "Goal" = true then "Goal"
  else if t = "BlockedShot" ∨ q_has qs "BlockedPass" = true then "Blocked"
  else if t = "SavedShot" ∨ strContains out "Saved" = true then "Saved"
  else if t = "ShotOnPost" ∨ q_has qs "HitWoodWork" = true then "Post"
  else if t = "MissedShots" ∨ strContains out "Off Target" = true
      ∨ strContains out "Missed" = true then "Missed"
  else if out ≠ "" then out else if t ≠ "" then t else "Unknown"

def assistAliases : List String :=
  ["KeyPass", "Assist", "GoalAssist", "IntentionalGoalAssist", "IntentionalAssist",
   "AssistPassId"]

/-- One row of `df_shots` (exactly the columns re-indexed at lines 425-429). -/
structure ShotRow where
  match_id : Option JVal := none
  eventId : Option JVal := none
  minute : Option JVal := none
  second : Option JVal := none
  expandedMinute : Option JVal := none
  period : Option JVal := none
  teamId : Option JVal := none
  playerId : Option JVal := none
  x : Option JVal := none
  y : Option JVal := none
  endX : Option JVal := none
  endY : Option JVal := none
  typeName : Option String := none
  shot_outcome : String := ""
  related_pass_eventId : Option Int := none
  goal_mouth_y : Option ℚ := none
  goal_mouth_z : Option ℚ := none
  q_length : Option JVal := none
  q_angle : Option JVal := none
  qualifiers : Option JVal := none

def mkShotRow (r : EventRow) : ShotRow :=
  { match_id := r.match_id, eventId := r.eventId, minute := r.minute,
    second := r.second, expandedMinute := r.expandedMinute, period := r.period,
    teamId := r.teamId, playerId := r.playerId, x := r.x, y := r.y,
    endX := r.endX, endY := r.endY, typeName := r.typeName,
    shot_outcome := shot_outcome r,
    related_pass_eventId := safe_int (q_get_any r.qualifiers assistAliases),
    goal_mouth_y := safe_float (q_get r.qualifiers "GoalMouthY"),
    goal_mouth_z := safe_float (q_get r.qualifiers "GoalMouthZ"),
    q_length := q_get r.qualifiers "Length",
    q_angle := q_get r.qualifiers "Angle",
    qualifiers := r.qualifiers }

def build_df_shots (events : List EventRow) : List ShotRow :=
  (events.filter is_shot_row).map mkShotRow

/-! ### Score timeline (`build_score_timeline`, lines 656-693) -/

structure ScorePoint where
  expandedMinute : Option Int := none
  scorer_teamId : Option Int := none
  own_goal : Bool := false
  score_home : Nat := 0
  score_away : Nat := 0

/-- A stable insertion sort; Python's `sorted` and pandas' `sort_values` are
modelled by a stable sort (any two stable sorts for the same total preorder
agree; pandas' default kind is unstable only between tied keys, and no theorem
below depends on tie order). -/
def pyOrderedInsert (le : α → α → Bool) (x : α) : List α → List α
  | [] => [x]
  | y :: ys => if le x y then x :: y :: ys else y :: pyOrderedInsert le x ys

def pySort (le : α → α → Bool) : List α → List α
  | [] => []
  | x :: xs => pyOrderedInsert le x (pySort le xs)

def qLeB (a b : ℚ) : Bool := decide (a.num * (b.den : Int) ≤ b.num * (a.den : Int))

/-- The numeric sort key of a shot row for `sort_values("expandedMinute")`;
missing values sort last (pandas `na_position='last'`).  A non-numeric cell
would make the source's sort raise; it is ordered last here. -/
def emVal (s : ShotRow) : Option ℚ :=
  match s.expandedMinute with
  | some (.num q) => some q
  | _ => none

def emLe (a b : ShotRow) : Bool :=
  match emVal a, emVal b with
  | some qa, some qb => qLeB qa qb
  | some _, none => true
  | none, some _ => false
  | none, none => true

/-- The counter update of one loop iteration (the `if tid == home_team_id ...
elif ... else pass` block, lines 677-685). -/
def scoreStep (homeId awayId : Int) (h a : Nat) (tid : Option Int) (own : Bool) :
    Nat × Nat :=
  if tid = some homeId then (if own then (h, a + 1) else (h + 1, a))
  else if tid = some awayId then (if own then (h + 1, a) else (h, a + 1))
  else (h, a)

/-- The walk over goal rows with the two running counters (lines 672-692).
Each emitted point carries the post-increment scores. -/
def score_walk (homeId awayId : Int) : Nat → Nat → List ShotRow → List ScorePoint
  | _, _, [] => []
  | h, a, g :: gs =>
    let tid := safe_int g.teamId
    let own := q_has g.qualifiers "OwnGoal"
    let st : Nat × Nat := scoreStep homeId awayId h a tid own
    { expandedMinute := safe_int g.expandedMinute, scorer_teamId := tid,
      own_goal := own, score_home := st.1, score_away := st.2 }
      :: score_walk homeId awayId st.1 st.2 gs

def build_score_timeline (shots : List ShotRow) (homeId awayId : Int) : List ScorePoint :=
  score_walk homeId awayId 0 0
    (pySort emLe (shots.filter (fun s => decide (s.shot_outcome = "Goal"))))

/-- The per-goal crediting rule as the design document states it, phrased on
the fields recorded in an emitted point: a goal by the home team increments
home unless flagged own-goal, in which case it increments away (symmetrically
for the away team, checked second); any other team id changes neither
counter. -/
def creditPair (homeId awayId : Int) (h a : Nat) (p : ScorePoint) : Nat × Nat :=
  if p.scorer_teamId = some homeId then
    (if p.own_goal then (h, a + 1) else (h + 1, a))
  else if p.scorer_teamId = some awayId then
    (if p.own_goal then (h + 1, a) else (h, a + 1))
  else (h, a)

/-! ### Enriched passes (`build_df_passes_enriched`, lines 433-491) -/

/-- One entry of a pass row's `related_shots` list (lines 449-455). -/
structure RelShot where
  shot_eventId : Option Int := none
  shot_outcome : String := ""
  typeName : Option String := none
  minute : Option Int := none
  second : Option ℚ := none

/-- `astype("Int64")` on an object column; non-coercible cells would raise in
pandas, they are modelled by the coerced value or absence. -/
def astypeInt64 (v : Option JVal) : Option Int := v.bind pyIntOpt

def relShotOf (s : ShotRow) : RelShot :=
  { shot_eventId := safe_int s.eventId, shot_outcome := s.shot_outcome,
    typeName := s.typeName, minute := safe_int s.minute,
    second := safe_float s.second }

def idxLookup (m : List ((Int × Int) × List RelShot)) (key : Int × Int) :
    Option (List RelShot) :=
  match m with
  | [] => none
  | (k, v) :: rest => if k = key then some v else idxLookup rest key

/-- `defaultdict(list)` append: an existing key keeps its position and grows
its list; a new key is appended. -/
def idxAdd (m : List ((Int × Int) × List RelShot)) (key : Int × Int) (e : RelShot) :
    List ((Int × Int) × List RelShot) :=
  if m.any (fun p => decide (p.1 = key)) then
    m.map (fun p => if p.1 = key then (p.1, p.2 ++ [e]) else p)
  else m ++ [(key, [e])]

/-- The shots index keyed by `(teamId, related_pass_eventId)` (lines 438-455). -/
def shotIndexOf (shots : List ShotRow) : List ((Int × Int) × List RelShot) :=
  shots.foldl
    (fun m s =>
      match astypeInt64 s.teamId, s.related_pass_eventId with
      | some tid, some rp => idxAdd m (tid, rp) (relShotOf s)
      | _, _ => m)
    []

def relatedFor (idx : List ((Int × Int) × List RelShot)) (tid eid : Option Int) :
    List RelShot :=
  match tid, eid with
  | some t, some e => (idxLookup idx (t, e)).getD []
  | _, _ => []

/-- One row of `df_passes` (the `want` columns of lines 487-491). -/
structure PassRow where
  match_id : Option JVal := none
  eventId : Option Int := none
  minute : Option JVal := none
  second : Option JVal := none
  expandedMinute : Option JVal := none
  period : Option JVal := none
  teamId : Option Int := none
  playerId : Option JVal := none
  x : Option JVal := none
  y : Option JVal := none
  endX : Option JVal := none
  endY : Option JVal := none
  typeName : Option String := none
  outcomeName : Option String := none
  pass_outcome : String := ""
  is_key_pass : Bool := false
  is_assist : Bool := false
  is_cross : Bool := false
  is_throughball : Bool := false
  q_length : Option JVal := none
  q_angle : Option JVal := none
  related_shots : List RelShot := []
  has_ws_assist_flag : Bool := false
  qualifiers : Option JVal := none

def wsAssistNames : List String := ["Assist", "GoalAssist", "IntentionalGoalAssist"]

def mkPassRow (idx : List ((Int × Int) × List RelShot)) (r : EventRow) : PassRow :=
  let tid := astypeInt64 r.teamId
  let eid := astypeInt64 r.eventId
  let rel := relatedFor idx tid eid
  { match_id := r.match_id, eventId := eid, minute := r.minute,
    second := r.second, expandedMinute := r.expandedMinute, period := r.period,
    teamId := tid, playerId := r.playerId, x := r.x, y := r.y,
    endX := r.endX, endY := r.endY, typeName := r.typeName,
    outcomeName := r.outcomeName,
    pass_outcome := r.outcomeName.getD "Unknown",
    is_key_pass := decide (0 < rel.length),
    is_assist := rel.any (fun sh => decide (sh.shot_outcome = "Goal")),
    is_cross := q_has r.qualifiers "Cross",
    is_throughball := q_has r.qualifiers "ThroughBall"
      || q_has r.qualifiers "ChippedThroughBall",
    q_length := q_get r.qualifiers "Length",
    q_angle := q_get r.qualifiers "Angle",
    related_shots := rel,
    has_ws_assist_flag :=
      match r.qualifiers with
      | some (.arr l) =>
        l.any (fun q =>
          match qTypeName q with
          | some s => wsAssistNames.contains s
          | none => false)
      | _ => false,
    qualifiers := r.qualifiers }

def build_df_passes_enriched (events : List EventRow) (shots : List ShotRow) :
    List PassRow :=
  let idx := shotIndexOf shots
  (events.filter (fun r => decide (r.typeName = some "Pass"))).map (mkPassRow idx)

/-! ### Lemmas about the stable sort and the score walk -/

theorem length_pyOrderedInsert (le : α → α → Bool) (x : α) :
    ∀ l : List α, (pyOrderedInsert le x l).length = l.length + 1 := by
  intro l
  induction l with
  | nil => rfl
  | cons y ys ih =>
    simp only [pyOrderedInsert]
    split_ifs <;> simp [ih]

theorem length_pySort (le : α → α → Bool) :
    ∀ l : List α, (pySort le l).length = l.length := by
  intro l
  induction l with
  | nil => rfl
  | cons x xs ih => simp [pySort, length_pyOrderedInsert, ih]

theorem countP_pyOrderedInsert (le : α → α → Bool) (p : α → Bool) (x : α) :
    ∀ l : List α,
    (pyOrderedInsert le x l).countP p = l.countP p + (if p x then 1 else 0) := by
  intro l
  induction l with
  | nil => simp [pyOrderedInsert, List.countP_cons]
  | cons y ys ih =>
    simp only [pyOrderedInsert]
    by_cases hle : le x y = true
    · rw [if_pos hle]
      simp only [List.countP_cons]
    · rw [if_neg hle]
      simp only [List.countP_cons, ih]
      omega

theorem countP_pySort (le : α → α → Bool) (p : α → Bool) :
    ∀ l : List α, (pySort le l).countP p = l.countP p := by
  intro l
  induction l with
  | nil => rfl
  | cons x xs ih =>
    simp [pySort, countP_pyOrderedInsert, ih, List.countP_cons]

theorem score_walk_length (hid aid : Int) :
    ∀ (gs : List ShotRow) (h a : Nat),
    (score_walk hid aid h a gs).length = gs.length := by
  intro gs
  induction gs with
  | nil => intro h a; rfl
  | cons g gs ih => intro h a; simp only [score_walk, List.length_cons, ih]

theorem score_walk_head (hid aid : Int) (gs : List ShotRow) (h a : Nat)
    (p : ScorePoint) (rest : List ScorePoint)
    (hw : score_walk hid aid h a gs = p :: rest) :
    (p.score_home, p.score_away) = creditPair hid aid h a p := by
  cases gs with
  | nil => simp [score_walk] at hw
  | cons g gs' =>
    simp only [score_walk] at hw
    injection hw with h1 h2
    subst h1
    rfl

theorem score_walk_adj (hid aid : Int) :
    ∀ (gs : List ShotRow) (h a : Nat) (pre : List ScorePoint) (p q : ScorePoint)
      (suf : List ScorePoint),
    score_walk hid aid h a gs = pre ++ p :: q :: suf →
    (q.score_home, q.score_away) = creditPair hid aid p.score_home p.score_away q := by
  intro gs
  induction gs with
  | nil =>
    intro h a pre p q suf hw
    cases pre <;> simp [score_walk] at hw
  | cons g gs' ih =>
    intro h a pre p q suf hw
    simp only [score_walk] at hw
    cases pre with
    | nil =>
      rw [List.nil_append] at hw
      injection hw with h1 h2
      subst h1
      exact score_walk_head hid aid gs' _ _ q suf h2
    | cons x pre' =>
      rw [List.cons_append] at hw
      injection hw with h1 h2
      exact ih _ _ pre' p q suf h2

theorem scoreStep_fst (hid aid : Int) (hne : hid ≠ aid) (h a : Nat)
    (tid : Option Int) (own : Bool) :
    (scoreStep hid aid h a tid own).1
      = h + (if (decide (tid = some hid) && !own) = true then 1 else 0)
          + (if (decide (tid = some aid) && own) = true then 1 else 0) := by
  unfold scoreStep
  by_cases h1 : tid = some hid
  · have h2 : ¬tid = some aid := by
      rw [h1]; simp only [Option.some.injEq]; exact hne
    cases own <;> simp [h1, h2, hne]
  · by_cases h2 : tid = some aid <;> cases own <;> simp [h1, h2, Ne.symm hne]

theorem scoreStep_snd (hid aid : Int) (hne : hid ≠ aid) (h a : Nat)
    (tid : Option Int) (own : Bool) :
    (scoreStep hid aid h a tid own).2
      = a + (if (decide (tid = some aid) && !own) = true then 1 else 0)
          + (if (decide (tid = some hid) && own) = true then 1 else 0) := by
  unfold scoreStep
  by_cases h1 : tid = some hid
  · have h2 : ¬tid = some aid := by
      rw [h1]; simp only [Option.some.injEq]; exact hne
    cases own <;> simp [h1, h2, hne]
  · by_cases h2 : tid = some aid <;> cases own <;> simp [h1, h2, Ne.symm hne]

theorem creditPair_le (hid aid : Int) (h a : Nat) (p : ScorePoint) :
    h ≤ (creditPair hid aid h a p).1 ∧ a ≤ (creditPair hid aid h a p).2 := by
  unfold creditPair
  split_ifs <;> exact ⟨by omega, by omega⟩

def goalCreditsHome (hid aid : Int) (g : ShotRow) : Bool :=
  decide (safe_int g.teamId = some hid) && !q_has g.qualifiers "OwnGoal"

def goalCreditsHomeOwn (hid aid : Int) (g : ShotRow) : Bool :=
  decide (safe_int g.teamId = some aid) && q_has g.qualifiers "OwnGoal"

def goalCreditsAway (hid aid : Int) (g : ShotRow) : Bool :=
  decide (safe_int g.teamId = some aid) && !q_has g.qualifiers "OwnGoal"

def goalCreditsAwayOwn (hid aid : Int) (g : ShotRow) : Bool :=
  decide (safe_int g.teamId = some hid) && q_has g.qualifiers "OwnGoal"

theorem score_walk_last (hid aid : Int) (hne : hid ≠ aid) :
    ∀ (gs : List ShotRow) (h a : Nat) (pre : List ScorePoint) (p : ScorePoint),
    score_walk hid aid h a gs = pre ++ [p] →
    p.score_home = h + gs.countP (goalCreditsHome hid aid)
        + gs.countP (goalCreditsHomeOwn hid aid)
    ∧ p.score_away = a + gs.countP (goalCreditsAway hid aid)
        + gs.countP (goalCreditsAwayOwn hid aid) := by
  intro gs
  induction gs with
  | nil =>
    intro h a pre p hw
    cases pre <;> simp [score_walk] at hw
  | cons g gs' ih =>
    intro h a pre p hw
    simp only [score_walk] at hw
    cases pre with
    | nil =>
      rw [List.nil_append] at hw
      injection hw with h1 h2
      have hlen : gs'.length = 0 := by
        rw [← score_walk_length hid aid gs'
          (scoreStep hid aid h a (safe_int g.teamId) (q_has g.qualifiers "OwnGoal")).1
          (scoreStep hid aid h a (safe_int g.teamId) (q_has g.qualifiers "OwnGoal")).2]
        rw [h2]
        rfl
      have hgs' : gs' = [] := List.length_eq_zero.mp hlen
      subst hgs'
      subst h1
      constructor
      · show (scoreStep hid aid h a (safe_int g.teamId) (q_has g.qualifiers "OwnGoal")).1 = _
        rw [scoreStep_fst hid aid hne]
        simp only [List.countP_cons, List.countP_nil, goalCreditsHome, goalCreditsHomeOwn]
        omega
      · show (scoreStep hid aid h a (safe_int g.teamId) (q_has g.qualifiers "OwnGoal")).2 = _
        rw [scoreStep_snd hid aid hne]
        simp only [List.countP_cons, List.countP_nil, goalCreditsAway, goalCreditsAwayOwn]
        omega
    | cons x pre' =>
      rw [List.cons_append] at hw
      injection hw with h1 h2
      obtain ⟨ihh, iha⟩ := ih _ _ pre' p h2
      constructor
      · rw [ihh, scoreStep_fst hid aid hne]
        simp only [List.countP_cons, goalCreditsHome, goalCreditsHomeOwn]
        omega
      · rw [iha, scoreStep_snd hid aid hne]
        simp only [List.countP_cons, goalCreditsAway, goalCreditsAwayOwn]
        omega

/-! ### Claim C5: score-timeline crediting -/

/-- Claim C5: the score timeline walks the goal-outcome shot rows in ascending
expanded-minute order; every goal produces a point (the point count equals the
goal count, so unknown-team goals are recorded too); the first point's scores
arise from (0, 0) and each later point's scores arise from the previous
point's scores by the crediting rule `creditPair`: a goal by the home team
increments home unless flagged own-goal (then away), symmetrically for the
away team, and a goal whose team id matches neither changes neither counter;
each point carries the post-increment scores. -/
theorem score_timeline_credit (shots : List ShotRow) (hid aid : Int) :
    (build_score_timeline shots hid aid).length
      = (shots.filter (fun s => decide (s.shot_outcome = "Goal"))).length
  ∧ (∀ p rest, build_score_timeline shots hid aid = p :: rest →
      (p.score_home, p.score_away) = creditPair hid aid 0 0 p)
  ∧ (∀ pre p q suf, build_score_timeline shots hid aid = pre ++ p :: q :: suf →
      (q.score_home, q.score_away) = creditPair hid aid p.score_home p.score_away q) := by
  refine ⟨?_, ?_, ?_⟩
  · unfold build_score_timeline
    rw [score_walk_length, length_pySort]
  · intro p rest hw
    exact score_walk_head hid aid _ 0 0 p rest hw
  · intro pre p q suf hw
    exact score_walk_adj hid aid _ 0 0 pre p q suf hw

def c5shot : ShotRow :=
  { teamId := some (.num 2), expandedMinute := some (.num 10),
    shot_outcome := "Goal",
    qualifiers := some (.arr [.obj [("type", .obj [("displayName", .str "OwnGoal")])]]) }

/-- Witness for C5: an own goal by the away team (id 2) increments the home
score, not the away score. -/
theorem score_timeline_credit_witness :
    (∃ rest, build_score_timeline [c5shot] 1 2
        = { expandedMinute := some 10, scorer_teamId := some 2, own_goal := true,
            score_home := 1, score_away := 0 } :: rest)
  ∧ ({ expandedMinute := some 10, scorer_teamId := some 2, own_goal := true,
        score_home := 1, score_away := 0 : ScorePoint }.score_home,
     ({ expandedMinute := some 10, scorer_teamId := some 2, own_goal := true,
        score_home := 1, score_away := 0 : ScorePoint }).score_away)
      = creditPair 1 2 0 0
          { expandedMinute := some 10, scorer_teamId := some 2, own_goal := true,
            score_home := 1, score_away := 0 } :=
  ⟨⟨[], rfl⟩,
   (score_timeline_credit [c5shot] 1 2).2.1 _ [] rfl⟩

/-! ### Claim C8: score monotonicity and final totals -/

/-- Claim C8: in every generated score-timeline sequence the home and away
running scores are non-decreasing from point to point, and the last point
carries the final score obtained by summing, for each side, its non-own goals
plus the opponent's own goals (over the goal-outcome rows). -/
theorem score_timeline_monotone_final (shots : List ShotRow) (hid aid : Int)
    (hne : hid ≠ aid) :
    (∀ pre p q suf, build_score_timeline shots hid aid = pre ++ p :: q :: suf →
      p.score_home ≤ q.score_home ∧ p.score_away ≤ q.score_away)
  ∧ (∀ pre p, build_score_timeline shots hid aid = pre ++ [p] →
      p.score_home
        = (shots.filter (fun s => decide (s.shot_outcome = "Goal"))).countP
            (goalCreditsHome hid aid)
        + (shots.filter (fun s => decide (s.shot_outcome = "Goal"))).countP
            (goalCreditsHomeOwn hid aid)
      ∧ p.score_away
        = (shots.filter (fun s => decide (s.shot_outcome = "Goal"))).countP
            (goalCreditsAway hid aid)
        + (shots.filter (fun s => decide (s.shot_outcome = "Goal"))).countP
            (goalCreditsAwayOwn hid aid)) := by
  constructor
  · intro pre p q suf hw
    have hadj := score_walk_adj hid aid _ 0 0 pre p q suf hw
    have hle := creditPair_le hid aid p.score_home p.score_away q
    have hh : q.score_home = (creditPair hid aid p.score_home p.score_away q).1 :=
      congrArg Prod.fst hadj
    have ha : q.score_away = (creditPair hid aid p.score_home p.score_away q).2 :=
      congrArg Prod.snd hadj
    rw [hh, ha]
    exact hle
  · intro pre p hw
    have := score_walk_last hid aid hne _ 0 0 pre p hw
    simpa [countP_pySort] using this

def c8shotA : ShotRow :=
  { teamId := some (.num 1), expandedMinute := some (.num 3), shot_outcome := "Goal" }

def c8shotB : ShotRow :=
  { teamId := some (.num 2), expandedMinute := some (.num 7), shot_outcome := "Goal" }

/-- Witness for C8 at a concrete two-goal match: scores are non-decreasing
between the two points and the last point carries the 1-1 final total. -/
theorem score_timeline_monotone_final_witness :
    (1 : Int) ≠ 2
  ∧ (∀ p q, build_score_timeline [c8shotA, c8shotB] 1 2 = [p, q] →
      p.score_home ≤ q.score_home ∧ p.score_away ≤ q.score_away)
  ∧ (∀ p, build_score_timeline [c8shotA, c8shotB] 1 2
        = [{ expandedMinute := some 3, scorer_teamId := some 1, own_goal := false,
             score_home := 1, score_away := 0 }, p] →
      p.score_home = 1 ∧ p.score_away = 1) := by
  refine ⟨by decide, ?_, ?_⟩
  · intro p q hw
    exact (score_timeline_monotone_final [c8shotA, c8shotB] 1 2 (by decide)).1
      [] p q [] hw
  · intro p hw
    have := (score_timeline_monotone_final [c8shotA, c8shotB] 1 2 (by decide)).2
      [{ expandedMinute := some 3, scorer_teamId := some 1, own_goal := false,
         score_home := 1, score_away := 0 }] p hw
    simpa using this

/-! ### Claim C4: the shot-outcome priority chain -/

/-- Claim C4 (amended): every event classified as a shot receives exactly one
`shot_outcome`, decided by first match in the fixed priority order: goal
tag/qualifier, blocked tag/qualifier, saved tag or outcome text containing
"Saved", post tag/qualifier, missed tag or off-target outcome text; when no
rule fires the raw outcome text is used, else the raw type text, else
"Unknown" — and such fallback values may lie outside the six-name set
{Goal, Blocked, Saved, Post, Missed, Unknown}. -/
theorem shot_outcome_priority (r : EventRow) :
    (pyStr r.typeName = "Goal" ∨ q_has r.qualifiers "Goal" = true →
      shot_outcome r = "Goal")
  ∧ (¬(pyStr r.typeName = "Goal" ∨ q_has r.qualifiers "Goal" = true) →
      (pyStr r.typeName = "BlockedShot" ∨ q_has r.qualifiers "BlockedPass" = true) →
      shot_outcome r = "Blocked")
  ∧ (¬(pyStr r.typeName = "Goal" ∨ q_has r.qualifiers "Goal" = true) →
      ¬(pyStr r.typeName = "BlockedShot" ∨ q_has r.qualifiers "BlockedPass" = true) →
      (pyStr r.typeName = "SavedShot" ∨ strContains (r.outcomeName.getD "") "Saved" = true) →
      shot_outcome r = "Saved")
  ∧ (¬(pyStr r.typeName = "Goal" ∨ q_has r.qualifiers "Goal" = true) →
      ¬(pyStr r.typeName = "BlockedShot" ∨ q_has r.qualifiers "BlockedPass" = true) →
      ¬(pyStr r.typeName = "SavedShot" ∨ strContains (r.outcomeName.getD "") "Saved" = true) →
      (pyStr r.typeName = "ShotOnPost" ∨ q_has r.qualifiers "HitWoodWork" = true) →
      shot_outcome r = "Post")
  ∧ (¬(pyStr r.typeName = "Goal" ∨ q_has r.qualifiers "Goal" = true) →
      ¬(pyStr r.typeName = "BlockedShot" ∨ q_has r.qualifiers "BlockedPass" = true) →
      ¬(pyStr r.typeName = "SavedShot" ∨ strContains (r.outcomeName.getD "") "Saved" = true) →
      ¬(pyStr r.typeName = "ShotOnPost" ∨ q_has r.qualifiers "HitWoodWork" = true) →
      (pyStr r.typeName = "MissedShots" ∨ strContains (r.outcomeName.getD "") "Off Target" = true
        ∨ strContains (r.outcomeName.getD "") "Missed" = true) →
      shot_outcome r = "Missed")
  ∧ (¬(pyStr r.typeName = "Goal" ∨ q_has r.qualifiers "Goal" = true) →
      ¬(pyStr r.typeName = "BlockedShot" ∨ q_has r.qualifiers "BlockedPass" = true) →
      ¬(pyStr r.typeName = "SavedShot" ∨ strContains (r.outcomeName.getD "") "Saved" = true) →
      ¬(pyStr r.typeName = "ShotOnPost" ∨ q_has r.qualifiers "HitWoodWork" = true) →
      ¬(pyStr r.typeName = "MissedShots" ∨ strContains (r.outcomeName.getD "") "Off Target" = true
        ∨ strContains (r.outcomeName.getD "") "Missed" = true) →
      shot_outcome r
        = (if r.outcomeName.getD "" ≠ "" then r.outcomeName.getD ""
           else if pyStr r.typeName ≠ "" then pyStr r.typeName else "Unknown")) := by
  simp only [shot_outcome]
  refine ⟨?_, ?_, ?_, ?_, ?_, ?_⟩
  · intro h1; rw [if_pos h1]
  · intro h1 h2; rw [if_neg h1, if_pos h2]
  · intro h1 h2 h3; rw [if_neg h1, if_neg h2, if_pos h3]
  · intro h1 h2 h3 h4; rw [if_neg h1, if_neg h2, if_neg h3, if_pos h4]
  · intro h1 h2 h3 h4 h5; rw [if_neg h1, if_neg h2, if_neg h3, if_neg h4, if_pos h5]
  · intro h1 h2 h3 h4 h5; rw [if_neg h1, if_neg h2, if_neg h3, if_neg h4, if_neg h5]

/-- A row that `build_df_shots` classifies as a shot (type tag "Shot") whose
outcome text is "Successful". -/
def c4row : EventRow := { typeName := some "Shot", outcomeName := some "Successful" }

/-- Claim C4 counterexample: the classifier keeps this row as a shot and
assigns it `shot_outcome` "Successful", which is outside the set
{Goal, Blocked, Saved, Post, Missed, Unknown} that the claim promises. -/
theorem shot_outcome_cex :
    (build_df_shots [c4row]).map (fun s => s.shot_outcome) = ["Successful"]
  ∧ "Successful" ∉ ["Goal", "Blocked", "Saved", "Post", "Missed", "Unknown"] :=
  ⟨rfl, by decide⟩

/-- A row carrying both the goal condition (type tag "Goal") and the blocked
condition (qualifier "BlockedPass"). -/
def c4wrow : EventRow :=
  { typeName := some "Goal",
    qualifiers := some (.arr [.obj [("type", .obj [("displayName", .str "BlockedPass")])]]) }

/-- Witness for C4: when both the goal rule and the blocked rule apply, the
goal rule wins by priority. -/
theorem shot_outcome_priority_witness :
    (pyStr c4wrow.typeName = "Goal" ∨ q_has c4wrow.qualifiers "Goal" = true)
  ∧ (pyStr c4wrow.typeName = "BlockedShot" ∨ q_has c4wrow.qualifiers "BlockedPass" = true)
  ∧ shot_outcome c4wrow = "Goal" :=
  ⟨Or.inl rfl, Or.inr rfl, (shot_outcome_priority c4wrow).1 (Or.inl rfl)⟩

/-! ### Claim C9: pass enrichment consistency -/

/-- Claim C9: for every pass row produced by the enricher, `is_key_pass` holds
exactly when the row's `related_shots` list is non-empty, `is_assist` holds
exactly when some related shot has outcome "Goal", the `related_shots` list is
exactly the shots-index lookup at the row's (team id, event id), and every
assist row consequently has a related shot with outcome "Goal". -/
theorem passes_enriched_consistency (events : List EventRow) (shots : List ShotRow)
    (row : PassRow) (hrow : row ∈ build_df_passes_enriched events shots) :
    (row.is_key_pass = true ↔ row.related_shots ≠ [])
  ∧ (row.is_assist = true ↔ ∃ e ∈ row.related_shots, e.shot_outcome = "Goal")
  ∧ row.related_shots = relatedFor (shotIndexOf shots) row.teamId row.eventId
  ∧ (row.is_assist = true → row.related_shots ≠ []
      ∧ ∃ e ∈ row.related_shots, e.shot_outcome = "Goal") := by
  obtain ⟨r, hr, rfl⟩ := List.mem_map.mp hrow
  have hkey : (mkPassRow (shotIndexOf shots) r).is_key_pass = true
      ↔ (mkPassRow (shotIndexOf shots) r).related_shots ≠ [] := by
    simp only [mkPassRow, decide_eq_true_eq]
    generalize relatedFor (shotIndexOf shots) (astypeInt64 r.teamId) (astypeInt64 r.eventId) = rel
    cases rel <;> simp
  have hassist : (mkPassRow (shotIndexOf shots) r).is_assist = true
      ↔ ∃ e ∈ (mkPassRow (shotIndexOf shots) r).related_shots, e.shot_outcome = "Goal" := by
    simp only [mkPassRow, List.any_eq_true, decide_eq_true_eq]
  refine ⟨hkey, hassist, rfl, fun ha => ⟨?_, hassist.mp ha⟩⟩
  rcases hassist.mp ha with ⟨e, he, -⟩
  intro hnil
  rw [hnil] at he
  exact absurd he (List.not_mem_nil e)

def c9pass : EventRow :=
  { eventId := some (.num 5), teamId := some (.num 1), typeName := some "Pass" }

def c9shot : ShotRow :=
  { teamId := some (.num 1), related_pass_eventId := some 5, shot_outcome := "Goal" }

/-- Witness for C9 at a concrete pass/shot pair: the pass originating the goal
shot is a key pass and an assist. -/
theorem passes_enriched_consistency_witness :
    (mkPassRow (shotIndexOf [c9shot]) c9pass ∈ build_df_passes_enriched [c9pass] [c9shot])
  ∧ ((mkPassRow (shotIndexOf [c9shot]) c9pass).is_assist = true
      ↔ ∃ e ∈ (mkPassRow (shotIndexOf [c9shot]) c9pass).related_shots,
          e.shot_outcome = "Goal")
  ∧ (mkPassRow (shotIndexOf [c9shot]) c9pass).is_assist = true :=
  have hmem : mkPassRow (shotIndexOf [c9shot]) c9pass
      ∈ build_df_passes_enriched [c9pass] [c9shot] := by
    rw [show build_df_passes_enriched [c9pass] [c9shot]
        = [mkPassRow (shotIndexOf [c9shot]) c9pass] from rfl]
    exact List.mem_singleton_self _
  ⟨hmem, (passes_enriched_consistency [c9pass] [c9shot] _ hmem).2.1, rfl⟩

/-! ### Player normalization (`to_dataframes`, players part, lines 278-309) -/

/-- Rounding to two decimals.  The source applies Python `round(float(v), 2)`;
binary-float round-half-even is modelled by exact rational round-half-even,
which agrees except on values whose binary representation straddles a
half-cent boundary; no theorem below evaluates such a value. -/
def round2 (q : ℚ) : ℚ :=
  let s100 : Int := q.num * 100
  let f : Int := s100 / (q.den : Int)
  let rnum : Int := s100 - f * (q.den : Int)
  let n : Int :=
    if 2 * rnum < (q.den : Int) then f
    else if (q.den : Int) < 2 * rnum then f + 1
    else if f % 2 = 0 then f else f + 1
  Rat.divInt n 100

/-- `stats = p.get("stats") or {}` then `ratings = stats.get("ratings") or {}`
(lines 282-284). -/
def ratingsFieldOf (p : JVal) : JVal :=
  let stats := (pyOrOpt (jget p "stats") (some (.obj []))).getD (.obj [])
  (pyOrOpt (jget stats "ratings") (some (.obj []))).getD (.obj [])

/-- `[int(k) for k in ratings.keys()]`; any failing key raises, which the
source's `except` turns into a null rating. -/
def intKeysOf : List (String × JVal) → Option (List Int)
  | [] => some []
  | (k, _) :: rest =>
    match pyIntStr k with
    | none => none
    | some i => (intKeysOf rest).map (i :: ·)

def listMaxI : Int → List Int → Int
  | acc, [] => acc
  | acc, x :: xs => listMaxI (max acc x) xs

/-- `max(keys)` of a non-empty key list (the empty case is unreachable because
the source checks `ratings` is truthy first). -/
def maxKeys : List Int → Int
  | [] => 0
  | k :: rest => listMaxI k rest

/-- The end-of-match rating of one player entry (lines 283-291):
`rating = round(float(ratings.get(str(max(keys)))), 2)` inside a
`try/except` that yields `None` on any failure. -/
def ratingOf (p : JVal) : Option ℚ :=
  match ratingsFieldOf p with
  | .obj kvs =>
    if kvs.isEmpty then none
    else
      match intKeysOf kvs with
      | none => none
      | some ks =>
        match assocGet kvs (toString (maxKeys ks)) with
        | none => none
        | some v =>
          match pyFloatOpt v with
          | none => none
          | some q => some (round2 q)
  | _ => none

structure PlayerRow where
  match_id : Option JVal := none
  team_side : String := ""
  team_id : Option JVal := none
  team_name : Option JVal := none
  player_id : Option JVal := none
  player_name : Option JVal := none
  isFirstEleven : Option JVal := none
  position : Option JVal := none
  shirtNo : Option JVal := none
  height : Option JVal := none
  weight : Option JVal := none
  age : Option JVal := none
  rating : Option ℚ := none
  isManOfTheMatch : Option JVal := none

def mkPlayerRow (matchIdVal : Option JVal) (side : String) (tid tname : Option JVal)
    (p : JVal) : PlayerRow :=
  { match_id := matchIdVal, team_side := side, team_id := tid, team_name := tname,
    player_id := jget p "playerId", player_name := jget p "name",
    isFirstEleven := jget p "isFirstEleven", position := jget p "position",
    shirtNo := jget p "shirtNo", height := jget p "height",
    weight := jget p "weight", age := jget p "age",
    rating := ratingOf p, isManOfTheMatch := jget p "isManOfTheMatch" }

/-- `T = mcd.get(side) or {}`. -/
def teamOf (mcd : JVal) (side : String) : JVal :=
  (pyOrOpt (jget mcd side) (some (.obj []))).getD (.obj [])

/-- `T.get("players") or []` as a list of player entries. -/
def playersListOf (mcd : JVal) (side : String) : List JVal :=
  jItems ((pyOrOpt (jget (teamOf mcd side) "players") (some (.arr []))).getD (.arr []))

/-- The `_players(side)` rows (lines 278-308). -/
def playersRowsOf (matchIdVal : Option JVal) (mcd : JVal) (side : String) :
    List PlayerRow :=
  (playersListOf mcd side).map
    (mkPlayerRow matchIdVal side (jget (teamOf mcd side) "teamId")
      (jget (teamOf mcd side) "name"))

/-- The `players` table: `_players("home") + _players("away")` (line 309). -/
def to_dataframes_players (matchIdVal : Option JVal) (mcd : JVal) : List PlayerRow :=
  playersRowsOf matchIdVal mcd "home" ++ playersRowsOf matchIdVal mcd "away"

/-! ### Slot-to-player resolution (`_slot_player_map`, lines 533-573) -/

def jIsNull : JVal → Bool
  | .null => true
  | _ => false

/-- `o is not None` for the result of a `dict.get`. -/
def optNotNone (o : Option JVal) : Bool :=
  match o with
  | some v => !jIsNull v
  | none => false

/-- `mapping[s] = pid` on a Python `dict[int, int]`: an existing key keeps its
position and its value is replaced; a new key is appended. -/
def intUpsert (m : List (Int × Int)) (k v : Int) : List (Int × Int) :=
  if m.any (fun p => decide (p.1 = k)) then
    m.map (fun p => if p.1 = k then (k, v) else p)
  else m ++ [(k, v)]

/-- Shape 1 (lines 538-543): parallel `slots`/`playerIds` arrays.  `int(s)`
failures skip the pair; `int(pid)` failures are uncaught and abort (`none`). -/
def slotShape1 : List (JVal × JVal) → List (Int × Int) → Option (List (Int × Int))
  | [], m => some m
  | (s, pid) :: rest, m =>
    match pyIntOpt s with
    | none => slotShape1 rest m
    | some si =>
      if 0 < si ∧ jIsNull pid = false then
        match pyIntOpt pid with
        | none => none
        | some pv => slotShape1 rest (intUpsert m si pv)
      else slotShape1 rest m

/-- Shapes 2 (lines 545-552): a slot-number-to-player-id map, applied
unconditionally over the current mapping. -/
def slotShapeMap : List (String × JVal) → List (Int × Int) → Option (List (Int × Int))
  | [], m => some m
  | (k, v) :: rest, m =>
    match pyIntStr k with
    | none => slotShapeMap rest m
    | some si =>
      if 0 < si ∧ jIsNull v = false then
        match pyIntOpt v with
        | none => none
        | some pv => slotShapeMap rest (intUpsert m si pv)
      else slotShapeMap rest m

/-- Shape 3 (lines 554-561): an inverse player-id-to-slot map, applied
unconditionally over the current mapping.  A JSON key is a string, so the
`pid is not None` guard always holds. -/
def slotShapeInv : List (String × JVal) → List (Int × Int) → Option (List (Int × Int))
  | [], m => some m
  | (pidk, s) :: rest, m =>
    match pyIntOpt s with
    | none => slotShapeInv rest m
    | some si =>
      if 0 < si then
        match pyIntStr pidk with
        | none => none
        | some pv => slotShapeInv rest (intUpsert m si pv)
      else slotShapeInv rest m

/-- Shape 4 (lines 563-572): a list of `{slot, playerId}` pair objects, applied
only when the mapping is still empty. -/
def slotShape4 : List JVal → List (Int × Int) → Option (List (Int × Int))
  | [], m => some m
  | it :: rest, m =>
    match it with
    | .obj _ =>
      match (jget it "slot").bind pyIntOpt with
      | none => slotShape4 rest m
      | some si =>
        if 0 < si ∧ optNotNone (jget it "playerId") = true then
          match (jget it "playerId").bind pyIntOpt with
          | none => none
          | some pv => slotShape4 rest (intUpsert m si pv)
        else slotShape4 rest m
    | _ => slotShape4 rest m

/-- Shape 1 applied from scratch (lines 536-543): read the parallel arrays
`formationSlots`-or-`slots` and `playerIds` and, when they are lists of equal
positive length, fold the pairs into a fresh mapping. -/
def slotStep1 (f : JVal) : Option (List (Int × Int)) :=
  match (pyOrOpt (jget f "formationSlots")
      (pyOrOpt (jget f "slots") (some (.arr [])))).getD (.arr []),
    (pyOrOpt (jget f "playerIds") (some (.arr []))).getD (.arr []) with
  | .arr ss, .arr ps =>
    if ss.length = ps.length ∧ 0 < ss.length then slotShape1 (ss.zip ps) []
    else some []
  | _, _ => some []

/-- One iteration of the `for key in (...)` loop over the two slot-to-player
map keys (lines 545-552); a missing or non-dict value leaves the mapping
unchanged. -/
def slotStepMapKey (f : JVal) (key : String) (m : List (Int × Int)) :
    Option (List (Int × Int)) :=
  match jget f key with
  | some (.obj kvs) => slotShapeMap kvs m
  | _ => some m

/-- One iteration of the loop over the two player-to-slot map keys
(lines 554-561). -/
def slotStepInvKey (f : JVal) (key : String) (m : List (Int × Int)) :
    Option (List (Int × Int)) :=
  match jget f key with
  | some (.obj kvs) => slotShapeInv kvs m
  | _ => some m

/-- Shape 4 (lines 563-572), guarded by the mapping still being empty. -/
def slotStep4 (f : JVal) (m : List (Int × Int)) : Option (List (Int × Int)) :=
  match jget f "slots" with
  | some (.arr l) => if m.isEmpty then slotShape4 l m else some m
  | _ => some m

/-- `_slot_player_map` (lines 533-573).  `none` models an uncaught exception
from one of the `int(...)` coercions outside the `try` blocks. -/
def _slot_player_map (f : JVal) : Option (List (Int × Int)) :=
  (slotStep1 f).bind (fun m0 =>
    (slotStepMapKey f "formationSlotToPlayerIdMap" m0).bind (fun m1 =>
      (slotStepMapKey f "slotToPlayerIdMap" m1).bind (fun m2 =>
        (slotStepInvKey f "playerIdToFormationSlotMap" m2).bind (fun m3 =>
          (slotStepInvKey f "playerToSlotMap" m3).bind (fun m4 =>
            slotStep4 f m4)))))

/-- The design document's resolver contract in its own words (spec-side
definition, for comparison with `_slot_player_map`): try the four source
shapes in order and let the first shape that yields a non-empty mapping win,
never merging entries from later shapes. -/
def slotPlayerMapFallbackSpec (f : JVal) : Option (List (Int × Int)) :=
  (slotStep1 f).bind (fun m0 =>
    if !m0.isEmpty then some m0
    else
      (slotStepMapKey f "formationSlotToPlayerIdMap" []).bind (fun m1 =>
        (slotStepMapKey f "slotToPlayerIdMap" m1).bind (fun m2 =>
          if !m2.isEmpty then some m2
          else
            (slotStepInvKey f "playerIdToFormationSlotMap" []).bind (fun m3 =>
              (slotStepInvKey f "playerToSlotMap" m3).bind (fun m4 =>
                if !m4.isEmpty then some m4
                else
                  match jget f "slots" with
                  | some (.arr l) => slotShape4 l []
                  | _ => some [])))))

/-! ### Positions and the formations timeline builder (lines 575-654) -/

/-- One entry of `_positions_list` (lines 575-584): the horizontal and vertical
coordinate of one slot, normalized from the possible field-name pairs with
`p.get("horizontal", p.get("x", p.get("centerX")))` (a present key wins even
when its value is null). -/
def posEntry (p : JVal) : JVal × JVal :=
  match p with
  | .obj _ =>
    ((match jget p "horizontal" with
      | some v => v
      | none =>
        match jget p "x" with
        | some v => v
        | none =>
          match jget p "centerX" with
          | some v => v
          | none => .null),
     (match jget p "vertical" with
      | some v => v
      | none =>
        match jget p "y" with
        | some v => v
        | none =>
          match jget p "centerY" with
          | some v => v
          | none => .null))
  | _ => (.null, .null)

def _positions_list (f : JVal) : List (JVal × JVal) :=
  (jItems ((pyOrOpt (jget f "formationPositions")
    (pyOrOpt (jget f "positions")
      (pyOrOpt (jget f "formationCoordinates") (some (.arr []))))).getD (.arr []))).map
    posEntry

structure FormRow where
  match_id : Option JVal := none
  team_side : String := ""
  team_id : Option JVal := none
  team_name : Option JVal := none
  formation_name : Option String := none
  period : ℚ := 0
  start_expanded : Int := 0
  end_expanded : Int := 0
  duration_expanded : Int := 0

structure PosRow where
  match_id : Option JVal := none
  team_side : String := ""
  team_id : Option JVal := none
  period : ℚ := 0
  start_minute : Int := 0
  end_minute : Int := 0
  formation_name : Option String := none
  slot : Int := 0
  player_id : Int := 0
  jersey_number : Option JVal := none
  x : Option ℚ := none
  y : Option ℚ := none

/-- `max_exp`: one past the maximum `expandedMinute` over all events of the
match, computed once per run (lines 590-594). -/
def maxExpOf (mcd : JVal) : Int :=
  (jItems ((pyOrOpt (jget mcd "events") (some (.arr []))).getD (.arr []))).foldl
    (fun acc ev =>
      match pyIntOpt ((pyOrOpt (jget ev "expandedMinute") (some (.num 0))).getD (.num 0)) with
      | some v => max acc v
      | none => acc)
    0
  + 1

def jerseyUpsert (m : List (Int × JVal)) (k : Int) (v : JVal) : List (Int × JVal) :=
  if m.any (fun p => decide (p.1 = k)) then
    m.map (fun p => if p.1 = k then (k, v) else p)
  else m ++ [(k, v)]

def jerseyLookup (m : List (Int × JVal)) (k : Int) : Option JVal :=
  match m with
  | [] => none
  | (k2, v) :: rest => if k2 = k then some v else jerseyLookup rest k

/-- `jersey_by_pid` (lines 596-600). -/
def jerseyByPid (players : List PlayerRow) : List (Int × JVal) :=
  players.foldl
    (fun m r =>
      match safe_int r.player_id with
      | some pid => jerseyUpsert m pid (r.shirtNo.getD .null)
      | none => m)
    []

/-- A numeric sort-key cell; the source's `sorted` would raise on a
non-numeric value, modelled by the default. -/
def jnumD (v : JVal) (d : ℚ) : ℚ :=
  match v with
  | .num q => q
  | .bool b => if b then 1 else 0
  | _ => d

/-- The sort key `(f.get("period", 0), f.get("startMinuteExpanded", -1))`
(line 607). -/
def formKey (f : JVal) : ℚ × ℚ :=
  ((match jget f "period" with
    | some v => jnumD v 0
    | none => 0),
   (match jget f "startMinuteExpanded" with
    | some v => jnumD v (-1)
    | none => -1))

def qEqB (a b : ℚ) : Bool := decide (a = b)

def formLe (f g : JVal) : Bool :=
  if qEqB (formKey f).1 (formKey g).1 then qLeB (formKey f).2 (formKey g).2
  else qLeB (formKey f).1 (formKey g).1

/-- `period not in (1, 2, 16)` filter (lines 610-612); only numeric periods
with one of the recognized values are kept. -/
def periodVal (f : JVal) : Option ℚ :=
  match jget f "period" with
  | some (.num q) => if q = 1 ∨ q = 2 ∨ q = 16 then some q else none
  | _ => none

/-- `start = _safe_int(f.get("startMinuteExpanded")) or 0` (line 613). -/
def startOf (f : JVal) : Int :=
  (safe_int (jget f "startMinuteExpanded")).getD 0

/-- `end = _safe_int(f.get("endMinuteExpanded")) or max_exp` (line 614); note
that a present value of zero is falsy in Python and also falls back to
`max_exp`. -/
def endOf (maxExp : Int) (f : JVal) : Int :=
  match safe_int (jget f "endMinuteExpanded") with
  | some v => if v = 0 then maxExp else v
  | none => maxExp

/-- `(f.get("formationName") or "").strip() or None` (line 615). -/
def formationNameOf (f : JVal) : Option String :=
  let s :=
    match jget f "formationName" with
    | some (.str s) => s
    | _ => ""
  let t := String.mk (trimChars s.toList)
  if t = "" then none else some t

def mkFormRow (matchIdVal tid tname : Option JVal) (side : String) (maxExp : Int)
    (f : JVal) : FormRow :=
  { match_id := matchIdVal, team_side := side, team_id := tid, team_name := tname,
    formation_name := formationNameOf f, period := (periodVal f).getD 0,
    start_expanded := startOf f, end_expanded := endOf maxExp f,
    duration_expanded := endOf maxExp f - startOf f }

def mkPosRow (matchIdVal tid : Option JVal) (side : String) (per : ℚ)
    (startv endv : Int) (fname : Option String) (plist : List (JVal × JVal))
    (jm : List (Int × JVal)) (sp : Int × Int) : PosRow :=
  let xy : Option JVal × Option JVal :=
    if 1 ≤ sp.1 ∧ sp.1 ≤ (plist.length : Int) then
      match plist.get? (sp.1 - 1).toNat with
      | some pe => (some pe.1, some pe.2)
      | none => (none, none)
    else (none, none)
  { match_id := matchIdVal, team_side := side, team_id := tid, period := per,
    start_minute := startv, end_minute := endv, formation_name := fname,
    slot := sp.1, player_id := sp.2,
    jersey_number := jerseyLookup jm sp.2,
    x := safe_float xy.1, y := safe_float xy.2 }

/-- The position rows emitted for one formation record (lines 629-650). -/
def posRowsOf (matchIdVal tid : Option JVal) (side : String) (maxExp : Int)
    (jm : List (Int × JVal)) (f : JVal) : Option (List PosRow) :=
  (_slot_player_map f).map
    (fun m =>
      m.map (mkPosRow matchIdVal tid side ((periodVal f).getD 0) (startOf f)
        (endOf maxExp f) (formationNameOf f) (_positions_list f) jm))

/-- The per-side loop over sorted formation records (lines 609-650). -/
def processForms (matchIdVal tid tname : Option JVal) (side : String) (maxExp : Int)
    (jm : List (Int × JVal)) : List JVal → Option (List FormRow × List PosRow)
  | [] => some ([], [])
  | f :: fs =>
    match periodVal f with
    | none => processForms matchIdVal tid tname side maxExp jm fs
    | some _ =>
      match posRowsOf matchIdVal tid side maxExp jm f with
      | none => none
      | some prows =>
        match processForms matchIdVal tid tname side maxExp jm fs with
        | none => none
        | some (frs, prs) =>
          some (mkFormRow matchIdVal tid tname side maxExp f :: frs, prows ++ prs)

def formsOf (team : JVal) : List JVal :=
  jItems ((pyOrOpt (jget team "formations") (some (.arr []))).getD (.arr []))

/-- One side of `build_formations_timelines` (lines 603-650): the team's
formation records, sorted by `(period, startMinuteExpanded)`, emit one
`FormRow` each (for the recognized periods) plus the slot rows. -/
def sideRows (matchIdVal : Option JVal) (mcd : JVal) (players : List PlayerRow)
    (side : String) : Option (List FormRow × List PosRow) :=
  let team := teamOf mcd side
  processForms matchIdVal (jget team "teamId") (jget team "name") side
    (maxExpOf mcd) (jerseyByPid players) (pySort formLe (formsOf team))

def strLeB (a b : String) : Bool := !decide (b < a)

def formRowLe (r1 r2 : FormRow) : Bool :=
  if r1.team_side = r2.team_side then decide (r1.start_expanded ≤ r2.start_expanded)
  else strLeB r1.team_side r2.team_side

def posRowLe (r1 r2 : PosRow) : Bool :=
  if r1.team_side = r2.team_side then
    if r1.start_minute = r2.start_minute then decide (r1.slot ≤ r2.slot)
    else decide (r1.start_minute ≤ r2.start_minute)
  else strLeB r1.team_side r2.team_side

/-- `build_formations_timelines` (lines 586-654): both sides, then the final
`sort_values` on each table.  `none` models an uncaught exception from
`_slot_player_map`. -/
def build_formations_timelines (matchIdVal : Option JVal) (mcd : JVal)
    (players : List PlayerRow) : Option (List FormRow × List PosRow) :=
  match sideRows matchIdVal mcd players "home", sideRows matchIdVal mcd players "away" with
  | some (hf, hp), some (af, ap) =>
    some (pySort formRowLe (hf ++ af), pySort posRowLe (hp ++ ap))
  | _, _ => none

/-! ### Claim C2: the slot-resolution fallback chain -/

/-- Claim C2 (amended, scenario part): a formation whose parallel slot/player
arrays have mismatched lengths and which has no other mapping source yields an
empty slot-to-player mapping — hence zero PlayerPositionSlot rows for that
segment — and raises no error.  (The chain itself is not a strict first-match
fallback: see the counterexample, the two map shapes always merge into the
parallel-array result, only the pair-object-list shape is guarded by
emptiness.) -/
theorem slot_player_map_mismatch (f : JVal) (ss ps : List JVal)
    (h1 : jget f "formationSlots" = some (.arr ss))
    (h2 : jget f "playerIds" = some (.arr ps))
    (hlen : ss.length ≠ ps.length)
    (h3 : jget f "formationSlotToPlayerIdMap" = none)
    (h4 : jget f "slotToPlayerIdMap" = none)
    (h5 : jget f "playerIdToFormationSlotMap" = none)
    (h6 : jget f "playerToSlotMap" = none)
    (h7 : jget f "slots" = none)
    (matchIdVal tid : Option JVal) (side : String) (maxExp : Int)
    (jm : List (Int × JVal)) :
    _slot_player_map f = some []
  ∧ posRowsOf matchIdVal tid side maxExp jm f = some [] := by
  have e1 : slotStep1 f = some [] := by
    unfold slotStep1
    rw [h1, h2, h7]
    cases ss with
    | nil =>
      cases ps with
      | nil => exact absurd rfl hlen
      | cons p0 ps' => simp [pyOrOpt, jTruthy]
    | cons s0 ss' =>
      cases ps with
      | nil => simp [pyOrOpt, jTruthy]
      | cons p0 ps' =>
        have hlen' : ss'.length ≠ ps'.length := by
          intro he
          exact hlen (by simp [he])
        simp [pyOrOpt, jTruthy, hlen']
  have e2 : slotStepMapKey f "formationSlotToPlayerIdMap" [] = some [] := by
    unfold slotStepMapKey
    rw [h3]
  have e3 : slotStepMapKey f "slotToPlayerIdMap" [] = some [] := by
    unfold slotStepMapKey
    rw [h4]
  have e4 : slotStepInvKey f "playerIdToFormationSlotMap" [] = some [] := by
    unfold slotStepInvKey
    rw [h5]
  have e5 : slotStepInvKey f "playerToSlotMap" [] = some [] := by
    unfold slotStepInvKey
    rw [h6]
  have e6 : slotStep4 f [] = some [] := by
    unfold slotStep4
    rw [h7]
  have hmap : _slot_player_map f = some [] := by
    unfold _slot_player_map
    rw [e1, Option.some_bind, e2, Option.some_bind, e3, Option.some_bind,
        e4, Option.some_bind, e5, Option.some_bind, e6]
  exact ⟨hmap, by simp [posRowsOf, hmap]⟩

def c2mismatch : JVal :=
  .obj [("formationSlots", .arr [.num 1, .num 2]), ("playerIds", .arr [.num 10])]

/-- Witness for C2 at a concrete mismatched formation record. -/
theorem slot_player_map_mismatch_witness :
    _slot_player_map c2mismatch = some []
  ∧ posRowsOf none none "home" 1 [] c2mismatch = some [] :=
  slot_player_map_mismatch c2mismatch [.num 1, .num 2] [.num 10]
    rfl rfl (by decide) rfl rfl rfl rfl rfl none none "home" 1 []

def c2merge : JVal :=
  .obj [("formationSlots", .arr [.num 1]), ("playerIds", .arr [.num 10]),
        ("slotToPlayerIdMap", .obj [("2", .num 20)])]

/-- Claim C2 counterexample: the parallel arrays already yield the non-empty
mapping {1 ↦ 10}, yet the slot-to-player map shape is still applied and its
entry {2 ↦ 20} is merged in; under the claimed strict first-non-empty-shape
fallback (`slotPlayerMapFallbackSpec`, the spec's words) the result would be
{1 ↦ 10} alone. -/
theorem slot_player_map_merge_cex :
    _slot_player_map c2merge = some [(1, 10), (2, 20)]
  ∧ slotPlayerMapFallbackSpec c2merge = some [(1, 10)]
  ∧ ([(1, 10), (2, 20)] : List (Int × Int)) ≠ [(1, 10)] :=
  ⟨rfl, rfl, by decide⟩

/-! ### Claim C10: slot uniqueness and positivity -/

/-- The invariant maintained by every insertion into the slot mapping: slot
numbers (the keys) are pairwise distinct and strictly positive. -/
def SlotMapOk (m : List (Int × Int)) : Prop :=
  (m.map Prod.fst).Nodup ∧ ∀ p ∈ m, 0 < p.1

theorem slotMapOk_nil : SlotMapOk [] := by
  constructor
  · exact List.nodup_nil
  · intro p hp
    exact absurd hp (List.not_mem_nil p)

theorem intUpsert_keys (m : List (Int × Int)) (k v : Int) :
    (intUpsert m k v).map Prod.fst
      = if m.any (fun p => decide (p.1 = k)) then m.map Prod.fst
        else m.map Prod.fst ++ [k] := by
  unfold intUpsert
  split_ifs with hmem
  · rw [List.map_map]
    congr 1
    funext p
    by_cases hp : p.1 = k
    · simp [hp]
    · simp [hp]
  · simp

theorem slotMapOk_intUpsert (m : List (Int × Int)) (k v : Int) (hk : 0 < k)
    (hm : SlotMapOk m) : SlotMapOk (intUpsert m k v) := by
  obtain ⟨hnd, hpos⟩ := hm
  constructor
  · rw [intUpsert_keys]
    split_ifs with hmem
    · exact hnd
    · rw [List.nodup_append]
      refine ⟨hnd, List.nodup_singleton k, ?_⟩
      intro a ha hb
      rw [List.mem_singleton] at hb
      subst hb
      rw [List.mem_map] at ha
      obtain ⟨p, hp, hpk⟩ := ha
      have hmem' : ∀ x ∈ m, ¬(x.1 = a) := by
        intro x hx hxa
        refine hmem ?_
        rw [List.any_eq_true]
        exact ⟨x, hx, by simp [hxa]⟩
      exact hmem' p hp hpk
  · intro p hp
    unfold intUpsert at hp
    split_ifs at hp with hmem
    · rw [List.mem_map] at hp
      obtain ⟨p0, hp0, hpe⟩ := hp
      by_cases hc : p0.1 = k
      · rw [if_pos hc] at hpe
        rw [← hpe]
        exact hk
      · rw [if_neg hc] at hpe
        rw [← hpe]
        exact hpos p0 hp0
    · rw [List.mem_append] at hp
      rcases hp with hp | hp
      · exact hpos p hp
      · rw [List.mem_singleton] at hp
        subst hp
        exact hk

theorem slotShape1_ok : ∀ (l : List (JVal × JVal)) (m m' : List (Int × Int)),
    SlotMapOk m → slotShape1 l m = some m' → SlotMapOk m' := by
  intro l
  induction l with
  | nil =>
    intro m m' hm h
    simp only [slotShape1] at h
    injection h with h
    rw [← h]
    exact hm
  | cons sp rest ih =>
    intro m m' hm h
    obtain ⟨s, pid⟩ := sp
    simp only [slotShape1] at h
    cases hs : pyIntOpt s with
    | none => rw [hs] at h; exact ih m m' hm h
    | some si =>
      rw [hs] at h
      dsimp only at h
      split_ifs at h with hcond
      · cases hp : pyIntOpt pid with
        | none => rw [hp] at h; exact Option.noConfusion h
        | some pv =>
          rw [hp] at h
          exact ih _ m' (slotMapOk_intUpsert m si pv hcond.1 hm) h
      · exact ih m m' hm h

theorem slotShapeMap_ok : ∀ (l : List (String × JVal)) (m m' : List (Int × Int)),
    SlotMapOk m → slotShapeMap l m = some m' → SlotMapOk m' := by
  intro l
  induction l with
  | nil =>
    intro m m' hm h
    simp only [slotShapeMap] at h
    injection h with h
    rw [← h]
    exact hm
  | cons kv rest ih =>
    intro m m' hm h
    obtain ⟨k, v⟩ := kv
    simp only [slotShapeMap] at h
    cases hs : pyIntStr k with
    | none => rw [hs] at h; exact ih m m' hm h
    | some si =>
      rw [hs] at h
      dsimp only at h
      split_ifs at h with hcond
      · cases hp : pyIntOpt v with
        | none => rw [hp] at h; exact Option.noConfusion h
        | some pv =>
          rw [hp] at h
          exact ih _ m' (slotMapOk_intUpsert m si pv hcond.1 hm) h
      · exact ih m m' hm h

theorem slotShapeInv_ok : ∀ (l : List (String × JVal)) (m m' : List (Int × Int)),
    SlotMapOk m → slotShapeInv l m = some m' → SlotMapOk m' := by
  intro l
  induction l with
  | nil =>
    intro m m' hm h
    simp only [slotShapeInv] at h
    injection h with h
    rw [← h]
    exact hm
  | cons kv rest ih =>
    intro m m' hm h
    obtain ⟨pidk, s⟩ := kv
    simp only [slotShapeInv] at h
    cases hs : pyIntOpt s with
    | none => rw [hs] at h; exact ih m m' hm h
    | some si =>
      rw [hs] at h
      dsimp only at h
      split_ifs at h with hcond
      · cases hp : pyIntStr pidk with
        | none => rw [hp] at h; exact Option.noConfusion h
        | some pv =>
          rw [hp] at h
          exact ih _ m' (slotMapOk_intUpsert m si pv hcond hm) h
      · exact ih m m' hm h

theorem slotShape4_ok : ∀ (l : List JVal) (m m' : List (Int × Int)),
    SlotMapOk m → slotShape4 l m = some m' → SlotMapOk m' := by
  intro l
  induction l with
  | nil =>
    intro m m' hm h
    simp only [slotShape4] at h
    injection h with h
    rw [← h]
    exact hm
  | cons it rest ih =>
    intro m m' hm h
    simp only [slotShape4] at h
    cases it with
    | obj kvs =>
      cases hs : (jget (.obj kvs) "slot").bind pyIntOpt with
      | none => rw [hs] at h; exact ih m m' hm h
      | some si =>
        rw [hs] at h
        dsimp only at h
        split_ifs at h with hcond
        · cases hp : (jget (.obj kvs) "playerId").bind pyIntOpt with
          | none => rw [hp] at h; exact Option.noConfusion h
          | some pv =>
            rw [hp] at h
            exact ih _ m' (slotMapOk_intUpsert m si pv hcond.1 hm) h
        · exact ih m m' hm h
    | null => exact ih m m' hm h
    | bool b => exact ih m m' hm h
    | num q => exact ih m m' hm h
    | str s => exact ih m m' hm h
    | arr xs => exact ih m m' hm h

theorem slotStep1_ok (f : JVal) (m : List (Int × Int))
    (h : slotStep1 f = some m) : SlotMapOk m := by
  unfold slotStep1 at h
  cases hsl : (pyOrOpt (jget f "formationSlots")
      (pyOrOpt (jget f "slots") (some (.arr [])))).getD (.arr []) with
  | arr ss =>
    rw [hsl] at h
    cases hpd : (pyOrOpt (jget f "playerIds") (some (.arr []))).getD (.arr []) with
    | arr ps =>
      rw [hpd] at h
      dsimp only at h
      split_ifs at h with hc
      · exact slotShape1_ok (ss.zip ps) [] m slotMapOk_nil h
      · injection h with h; rw [← h]; exact slotMapOk_nil
    | null => rw [hpd] at h; injection h with h; rw [← h]; exact slotMapOk_nil
    | bool b => rw [hpd] at h; injection h with h; rw [← h]; exact slotMapOk_nil
    | num q => rw [hpd] at h; injection h with h; rw [← h]; exact slotMapOk_nil
    | str s => rw [hpd] at h; injection h with h; rw [← h]; exact slotMapOk_nil
    | obj kvs => rw [hpd] at h; injection h with h; rw [← h]; exact slotMapOk_nil
  | null => rw [hsl] at h; injection h with h; rw [← h]; exact slotMapOk_nil
  | bool b => rw [hsl] at h; injection h with h; rw [← h]; exact slotMapOk_nil
  | num q => rw [hsl] at h; injection h with h; rw [← h]; exact slotMapOk_nil
  | str s => rw [hsl] at h; injection h with h; rw [← h]; exact slotMapOk_nil
  | obj kvs => rw [hsl] at h; injection h with h; rw [← h]; exact slotMapOk_nil

theorem slotStepMapKey_ok (f : JVal) (key : String) (ma mb : List (Int × Int))
    (hma : SlotMapOk ma) (h : slotStepMapKey f key ma = some mb) : SlotMapOk mb := by
  unfold slotStepMapKey at h
  cases hj : jget f key with
  | none => rw [hj] at h; injection h with h; rw [← h]; exact hma
  | some v =>
    rw [hj] at h
    cases v with
    | obj kvs => exact slotShapeMap_ok kvs ma mb hma h
    | null => injection h with h; rw [← h]; exact hma
    | bool b => injection h with h; rw [← h]; exact hma
    | num q => injection h with h; rw [← h]; exact hma
    | str s => injection h with h; rw [← h]; exact hma
    | arr xs => injection h with h; rw [← h]; exact hma

theorem slotStepInvKey_ok (f : JVal) (key : String) (ma mb : List (Int × Int))
    (hma : SlotMapOk ma) (h : slotStepInvKey f key ma = some mb) : SlotMapOk mb := by
  unfold slotStepInvKey at h
  cases hj : jget f key with
  | none => rw [hj] at h; injection h with h; rw [← h]; exact hma
  | some v =>
    rw [hj] at h
    cases v with
    | obj kvs => exact slotShapeInv_ok kvs ma mb hma h
    | null => injection h with h; rw [← h]; exact hma
    | bool b => injection h with h; rw [← h]; exact hma
    | num q => injection h with h; rw [← h]; exact hma
    | str s => injection h with h; rw [← h]; exact hma
    | arr xs => injection h with h; rw [← h]; exact hma

theorem slotStep4_ok (f : JVal) (ma mb : List (Int × Int))
    (hma : SlotMapOk ma) (h : slotStep4 f ma = some mb) : SlotMapOk mb := by
  unfold slotStep4 at h
  cases hj : jget f "slots" with
  | none => rw [hj] at h; injection h with h; rw [← h]; exact hma
  | some v =>
    rw [hj] at h
    cases v with
    | arr l =>
      dsimp only at h
      split_ifs at h with hc
      · exact slotShape4_ok l ma mb hma h
      · injection h with h; rw [← h]; exact hma
    | null => injection h with h; rw [← h]; exact hma
    | bool b => injection h with h; rw [← h]; exact hma
    | num q => injection h with h; rw [← h]; exact hma
    | str s => injection h with h; rw [← h]; exact hma
    | obj kvs => injection h with h; rw [← h]; exact hma

theorem slot_player_map_ok (f : JVal) (m : List (Int × Int))
    (h : _slot_player_map f = some m) : SlotMapOk m := by
  unfold _slot_player_map at h
  obtain ⟨m0, h0, h⟩ := Option.bind_eq_some.mp h
  obtain ⟨m1, h1, h⟩ := Option.bind_eq_some.mp h
  obtain ⟨m2, h2, h⟩ := Option.bind_eq_some.mp h
  obtain ⟨m3, h3, h⟩ := Option.bind_eq_some.mp h
  obtain ⟨m4, h4, h⟩ := Option.bind_eq_some.mp h
  exact slotStep4_ok f m4 m
    (slotStepInvKey_ok f "playerToSlotMap" m3 m4
      (slotStepInvKey_ok f "playerIdToFormationSlotMap" m2 m3
        (slotStepMapKey_ok f "slotToPlayerIdMap" m1 m2
          (slotStepMapKey_ok f "formationSlotToPlayerIdMap" m0 m1
            (slotStep1_ok f m0 h0) h1) h2) h3) h4) h

/-- Claim C10 (amended): within the position rows emitted for one formation
segment, no two rows share a slot number, and every slot number is at least 1;
the upper bound 11 is not enforced (see the counterexample). -/
theorem pos_rows_slots_nodup_positive (matchIdVal tid : Option JVal) (side : String)
    (maxExp : Int) (jm : List (Int × JVal)) (f : JVal) (rows : List PosRow)
    (hrows : posRowsOf matchIdVal tid side maxExp jm f = some rows) :
    (rows.map (fun r => r.slot)).Nodup ∧ ∀ r ∈ rows, 1 ≤ r.slot := by
  unfold posRowsOf at hrows
  rw [Option.map_eq_some'] at hrows
  obtain ⟨m, hmap, hrows⟩ := hrows
  obtain ⟨hnd, hpos⟩ := slot_player_map_ok f m hmap
  subst hrows
  constructor
  · rw [List.map_map]
    have : (fun r => PosRow.slot r) ∘
        mkPosRow matchIdVal tid side ((periodVal f).getD 0) (startOf f)
          (endOf maxExp f) (formationNameOf f) (_positions_list f) jm
        = Prod.fst := by
      funext sp
      rfl
    rw [this]
    exact hnd
  · intro r hr
    rw [List.mem_map] at hr
    obtain ⟨sp, hsp, hre⟩ := hr
    rw [← hre]
    exact hpos sp hsp

def c10f : JVal :=
  .obj [("period", .num 1), ("startMinuteExpanded", .num 0),
        ("slotToPlayerIdMap", .obj [("12", .num 99)])]

def c10mcd : JVal :=
  .obj [("home", .obj [("formations", .arr [c10f])]), ("away", .obj []),
        ("events", .arr [])]

/-- Claim C10 counterexample: a source formation carrying slot number 12 flows
through unchanged — the builder emits a PlayerPositionSlot row with slot 12,
outside the claimed 1..11 range (only positivity is enforced). -/
theorem pos_rows_slot_range_cex :
    (sideRows none c10mcd [] "home").map (fun pr => pr.2.map (fun r => r.slot))
      = some [12]
  ∧ ¬((12 : Int) ≤ 11) :=
  ⟨rfl, by decide⟩

def c10wf : JVal :=
  .obj [("formationSlots", .arr [.num 1, .num 2]),
        ("playerIds", .arr [.num 10, .num 20])]

/-- Witness for C10 at a concrete two-slot formation. -/
theorem pos_rows_slots_nodup_positive_witness :
    (posRowsOf none none "home" 1 [] c10wf).isSome = true
  ∧ (((posRowsOf none none "home" 1 [] c10wf).getD []).map (fun r => r.slot)).Nodup
  ∧ ∀ r ∈ (posRowsOf none none "home" 1 [] c10wf).getD [], 1 ≤ r.slot := by
  have h : posRowsOf none none "home" 1 [] c10wf
      = some ((posRowsOf none none "home" 1 [] c10wf).getD []) := rfl
  have hc := pos_rows_slots_nodup_positive none none "home" 1 [] c10wf _ h
  exact ⟨rfl, hc.1, hc.2⟩

/-! ### Claim C7: formation segments, order and end times -/

theorem mem_pyOrderedInsert (le : α → α → Bool) (x a : α) :
    ∀ l : List α, a ∈ pyOrderedInsert le x l ↔ a = x ∨ a ∈ l := by
  intro l
  induction l with
  | nil => simp [pyOrderedInsert]
  | cons y ys ih =>
    simp only [pyOrderedInsert]
    split_ifs with hle
    · simp [List.mem_cons]
    · simp only [List.mem_cons, ih]
      tauto

theorem mem_pySort (le : α → α → Bool) (a : α) :
    ∀ l : List α, a ∈ pySort le l ↔ a ∈ l := by
  intro l
  induction l with
  | nil => simp [pySort]
  | cons x xs ih =>
    simp [pySort, mem_pyOrderedInsert, ih]

theorem processForms_form_rows (matchIdVal tid tname : Option JVal) (side : String)
    (maxExp : Int) (jm : List (Int × JVal)) :
    ∀ (gs : List JVal) (frs : List FormRow) (prs : List PosRow),
    processForms matchIdVal tid tname side maxExp jm gs = some (frs, prs) →
    frs = (gs.filter (fun f => (periodVal f).isSome)).map
        (mkFormRow matchIdVal tid tname side maxExp) := by
  intro gs
  induction gs with
  | nil =>
    intro frs prs h
    simp only [processForms, Option.some.injEq, Prod.mk.injEq] at h
    obtain ⟨hf, -⟩ := h
    rw [← hf]
    simp
  | cons f fs ih =>
    intro frs prs h
    simp only [processForms] at h
    cases hpv : periodVal f with
    | none =>
      rw [hpv] at h
      have hps : (fun f => (periodVal f).isSome) f = false := by
        simp [hpv]
      simp only [List.filter_cons, hps, Bool.false_eq_true, if_false]
      exact ih frs prs h
    | some per =>
      rw [hpv] at h
      cases hpr : posRowsOf matchIdVal tid side maxExp jm f with
      | none => rw [hpr] at h; exact Option.noConfusion h
      | some prows =>
        rw [hpr] at h
        cases hrec : processForms matchIdVal tid tname side maxExp jm fs with
        | none => rw [hrec] at h; exact Option.noConfusion h
        | some pr =>
          rw [hrec] at h
          obtain ⟨frs', prs'⟩ := pr
          simp only [Option.some.injEq, Prod.mk.injEq] at h
          obtain ⟨hf, -⟩ := h
          rw [← hf]
          have hps : (fun f => (periodVal f).isSome) f = true := by
            simp [hpv]
          simp only [List.filter_cons, hps, if_true, List.map_cons]
          rw [ih frs' prs' hrec]

/-- Claim C7 (amended): for each team side the formation records are read in
ascending `(period, start-minute)` order (a stable sort), each record with a
recognized period emits exactly one FormationSegment, and each emitted
segment's end time is either the record's own `endMinuteExpanded` (when
present and non-zero) or one past the maximum expanded minute seen across all
events of the match (`maxExpOf`, computed once per run).  The end time is not
derived from the next segment's start (see the counterexample). -/
theorem formations_sorted_end_bound (matchIdVal : Option JVal) (mcd : JVal)
    (players : List PlayerRow) (side : String) (frs : List FormRow)
    (prs : List PosRow)
    (h : sideRows matchIdVal mcd players side = some (frs, prs)) :
    frs = ((pySort formLe (formsOf (teamOf mcd side))).filter
        (fun f => (periodVal f).isSome)).map
      (mkFormRow matchIdVal (jget (teamOf mcd side) "teamId")
        (jget (teamOf mcd side) "name") side (maxExpOf mcd))
  ∧ ∀ r ∈ frs, r.end_expanded = maxExpOf mcd
      ∨ ∃ f ∈ formsOf (teamOf mcd side),
          safe_int (jget f "endMinuteExpanded") = some r.end_expanded
          ∧ r.end_expanded ≠ 0 := by
  unfold sideRows at h
  have hfr := processForms_form_rows matchIdVal (jget (teamOf mcd side) "teamId")
    (jget (teamOf mcd side) "name") side (maxExpOf mcd) (jerseyByPid players)
    (pySort formLe (formsOf (teamOf mcd side))) frs prs h
  refine ⟨hfr, ?_⟩
  intro r hr
  rw [hfr, List.mem_map] at hr
  obtain ⟨f, hf, hre⟩ := hr
  have hfin : f ∈ formsOf (teamOf mcd side) :=
    (mem_pySort formLe f (formsOf (teamOf mcd side))).mp (List.mem_of_mem_filter hf)
  have hende : r.end_expanded = endOf (maxExpOf mcd) f := by
    rw [← hre]
    rfl
  rw [hende]
  unfold endOf
  cases he : safe_int (jget f "endMinuteExpanded") with
  | none => exact Or.inl rfl
  | some v =>
    dsimp only
    by_cases hv : v = 0
    · rw [if_pos hv]
      exact Or.inl rfl
    · rw [if_neg hv]
      exact Or.inr ⟨f, hfin, he, hv⟩

def c7f1 : JVal :=
  .obj [("period", .num 1), ("startMinuteExpanded", .num 0),
        ("endMinuteExpanded", .num 45)]

def c7f2 : JVal :=
  .obj [("period", .num 1), ("startMinuteExpanded", .num 50),
        ("endMinuteExpanded", .num 90)]

def c7mcd : JVal :=
  .obj [("home", .obj [("teamId", .num 1), ("formations", .arr [c7f1, c7f2])]),
        ("away", .obj []), ("events", .arr [])]

/-- Claim C7 counterexample: with two period-1 records (starts 0 and 50, ends
45 and 90) and no events, the first segment ends at 45 — not at the next
segment's start 50 — and the last segment of the period ends at 90, not at the
one-past-maximum-expanded-minute bound (which is 1 here).  Both end times come
from the records' own `endMinuteExpanded` fields. -/
theorem formations_end_cex :
    (sideRows none c7mcd [] "home").map
        (fun pr => pr.1.map (fun r => (r.start_expanded, r.end_expanded)))
      = some [(0, 45), (50, 90)]
  ∧ (45 : Int) ≠ 50
  ∧ maxExpOf c7mcd = 1
  ∧ (90 : Int) ≠ 1 :=
  ⟨rfl, by decide, rfl, by decide⟩

def c7wf : JVal := .obj [("period", .num 1), ("startMinuteExpanded", .num 0)]

def c7wmcd : JVal :=
  .obj [("home", .obj [("formations", .arr [c7wf])]), ("away", .obj []),
        ("events", .arr [.obj [("expandedMinute", .num 94)]])]

/-- Witness for C7 at a concrete record with no `endMinuteExpanded`: the
segment ends at `maxExpOf` = 95 (one past the maximum expanded minute 94). -/
theorem formations_sorted_end_bound_witness :
    (sideRows none c7wmcd [] "home"
      = some ([mkFormRow none none none "home" 95 c7wf], []))
  ∧ maxExpOf c7wmcd = 95
  ∧ ∀ r ∈ [mkFormRow none none none "home" 95 c7wf],
      r.end_expanded = maxExpOf c7wmcd
      ∨ ∃ f ∈ formsOf (teamOf c7wmcd "home"),
          safe_int (jget f "endMinuteExpanded") = some r.end_expanded
          ∧ r.end_expanded ≠ 0 := by
  have h : sideRows none c7wmcd [] "home"
      = some ([mkFormRow none none none "home" 95 c7wf], []) := rfl
  exact ⟨h, rfl, (formations_sorted_end_bound none c7wmcd [] "home" _ _ h).2⟩

/-! ### Claim C6: the end-of-match rating -/

/-- Claim C6 (amended): every player row's rating is `ratingOf` of its source
entry; when the rating-by-timestamp mapping is empty or not a map the rating
is null (never zero); when every key parses as an integer, the canonical
decimal string of the numerically largest key is itself a key, and its value
coerces to a number, the rating is that value rounded to two decimals; and
every non-null rating arises exactly this way — in particular a largest key
written non-canonically (for example "07") yields a null rating, not the
value. -/
theorem player_rating_maxkey (matchIdVal : Option JVal) (mcd : JVal) (side : String) :
    ((playersRowsOf matchIdVal mcd side).map (fun r => r.rating)
      = (playersListOf mcd side).map ratingOf)
  ∧ (∀ p kvs, ratingsFieldOf p = .obj kvs → kvs = [] → ratingOf p = none)
  ∧ (∀ p, (∀ kvs, ratingsFieldOf p ≠ .obj kvs) → ratingOf p = none)
  ∧ (∀ p kvs ks v q, ratingsFieldOf p = .obj kvs → kvs ≠ [] →
      intKeysOf kvs = some ks →
      assocGet kvs (toString (maxKeys ks)) = some v →
      pyFloatOpt v = some q →
      ratingOf p = some (round2 q))
  ∧ (∀ p q, ratingOf p = some q →
      ∃ kvs ks v qv, ratingsFieldOf p = .obj kvs ∧ kvs ≠ [] ∧
        intKeysOf kvs = some ks ∧
        assocGet kvs (toString (maxKeys ks)) = some v ∧
        pyFloatOpt v = some qv ∧ q = round2 qv) := by
  refine ⟨?_, ?_, ?_, ?_, ?_⟩
  · unfold playersRowsOf
    rw [List.map_map]
    rfl
  · intro p kvs hobj hnil
    unfold ratingOf
    rw [hobj, hnil]
    rfl
  · intro p hne
    unfold ratingOf
    cases hr : ratingsFieldOf p with
    | obj kvs => exact absurd hr (hne kvs)
    | null => rfl
    | bool b => rfl
    | num q => rfl
    | str s => rfl
    | arr xs => rfl
  · intro p kvs ks v q hobj hnil hks hvv hq
    unfold ratingOf
    rw [hobj]
    dsimp only
    rw [if_neg (by simpa [List.isEmpty_iff] using hnil), hks]
    dsimp only
    rw [hvv]
    dsimp only
    rw [hq]
  · intro p q h
    unfold ratingOf at h
    cases hr : ratingsFieldOf p with
    | obj kvs =>
      rw [hr] at h
      dsimp only at h
      split_ifs at h with hemp
      cases hks : intKeysOf kvs with
      | none => rw [hks] at h; exact Option.noConfusion h
      | some ks =>
        rw [hks] at h
        dsimp only at h
        cases hvv : assocGet kvs (toString (maxKeys ks)) with
        | none => rw [hvv] at h; exact Option.noConfusion h
        | some v =>
          rw [hvv] at h
          dsimp only at h
          cases hfq : pyFloatOpt v with
          | none => rw [hfq] at h; exact Option.noConfusion h
          | some qv =>
            rw [hfq] at h
            injection h with h
            exact ⟨kvs, ks, v, qv, rfl,
              by simpa [List.isEmpty_iff] using hemp, hks, hvv, hfq, h.symm⟩
    | null => rw [hr] at h; exact Option.noConfusion h
    | bool b => rw [hr] at h; exact Option.noConfusion h
    | num qn => rw [hr] at h; exact Option.noConfusion h
    | str s => rw [hr] at h; exact Option.noConfusion h
    | arr xs => rw [hr] at h; exact Option.noConfusion h

def c6p : JVal :=
  .obj [("stats", .obj [("ratings",
    .obj [("07", .num (Rat.divInt 13 2))])])]

def c6mcd : JVal :=
  .obj [("home", .obj [("players", .arr [c6p])]), ("away", .obj [])]

/-- Claim C6 counterexample: the ratings mapping {"07": 6.5} is non-empty and
every key parses as an integer (7), so by the claim the rating should be the
value at the numerically largest key, 6.5; but the source looks up the
canonical string "7", which is not a key, so the produced player row carries a
null rating. -/
theorem player_rating_cex :
    (playersRowsOf none c6mcd "home").map (fun r => r.rating) = [none]
  ∧ ratingOf c6p = none
  ∧ intKeysOf [("07", JVal.num (Rat.divInt 13 2))] = some [7]
  ∧ assocGet [("07", JVal.num (Rat.divInt 13 2))] (toString (maxKeys [7])) = none
  ∧ (none : Option ℚ) ≠ some (Rat.divInt 13 2) :=
  ⟨rfl, rfl, rfl, rfl, by decide⟩

def c6wp : JVal :=
  .obj [("stats", .obj [("ratings",
    .obj [("100", .num 6), ("200", .num (Rat.divInt 7234 1000))])])]

/-- Witness for C6: with ratings keyed "100" and "200", the value at the
largest key 200 (7.234) is selected and rounded to 7.23; the rating is not
null and not zero. -/
theorem player_rating_maxkey_witness :
    ratingsFieldOf c6wp = .obj [("100", JVal.num 6), ("200", JVal.num (Rat.divInt 7234 1000))]
  ∧ intKeysOf [("100", JVal.num 6), ("200", JVal.num (Rat.divInt 7234 1000))] = some [100, 200]
  ∧ ratingOf c6wp = some (round2 (Rat.divInt 7234 1000))
  ∧ round2 (Rat.divInt 7234 1000) = Rat.divInt 723 100 := by
  refine ⟨rfl, rfl, ?_, by decide⟩
  exact (player_rating_maxkey none c6mcd "home").2.2.2.1 c6wp
    [("100", JVal.num 6), ("200", JVal.num (Rat.divInt 7234 1000))]
    [100, 200] (JVal.num (Rat.divInt 7234 1000)) (Rat.divInt 7234 1000)
    rfl (List.cons_ne_nil _ _) rfl rfl rfl

/-! ### Locating and parsing the embedded literal
(`load_payload_from_html_text`, lines 174-244, and the payload check of
`process_one_match`, lines 867-869)

The regular expressions of the source are fixed patterns (literals separated
by optional whitespace, one optional group, one lazy group); each is modelled
by a dedicated leftmost-match scanner over the character list. -/

/-- Match a literal; on success return the remaining input. -/
def matchLit : List Char → List Char → Option (List Char)
  | [], hay => some hay
  | _ :: _, [] => none
  | n :: ns, h :: hs => if n = h then matchLit ns hs else none

/-- `re.search(r'require\.config\.params\["args"\]\s*=\s*\{', html)`; returns
the suffix of the input starting at the matched opening brace
(`m.end() - 1`). -/
def findArgsStart : List Char → Option (List Char)
  | [] => none
  | l@(_ :: rest) =>
    match matchLit ("require.config.params[\"args\"]".toList) l with
    | some r1 =>
      (match r1.dropWhile isWsCh with
       | '=' :: r3 =>
         (match r3.dropWhile isWsCh with
          | '{' :: r5 => some ('{' :: r5)
          | _ => findArgsStart rest)
       | _ => findArgsStart rest)
    | none => findArgsStart rest

/-- `re.search(rf"{key}\s*:\s*\{openc}", text)`; returns the suffix starting
at the opening delimiter. -/
def findKeyOpen (key : List Char) (openc : Char) : List Char → Option (List Char)
  | [] => none
  | l@(_ :: rest) =>
    match matchLit key l with
    | some r1 =>
      (match r1.dropWhile isWsCh with
       | ':' :: r3 =>
         (match r3.dropWhile isWsCh with
          | c :: r5 =>
            if c = openc then some (c :: r5) else findKeyOpen key openc rest
          | [] => findKeyOpen key openc rest)
       | _ => findKeyOpen key openc rest)
    | none => findKeyOpen key openc rest

/-- The `\s*:\s*\{` tail shared by the event-type pattern. -/
def sepThenBrace (r : List Char) : Option (List Char) :=
  match r.dropWhile isWsCh with
  | ':' :: r3 =>
    (match r3.dropWhile isWsCh with
     | '{' :: r5 => some ('{' :: r5)
     | _ => none)
  | _ => none

/-- `re.search(r"matchCentreEventType(Json)?\s*:\s*\{", text)`, with the
greedy optional group tried first. -/
def findEvtOpen : List Char → Option (List Char)
  | [] => none
  | l@(_ :: rest) =>
    match matchLit ("matchCentreEventType".toList) l with
    | some r1 =>
      (match matchLit ("Json".toList) r1 with
       | some r2 =>
         (match sepThenBrace r2 with
          | some s => some s
          | none =>
            match sepThenBrace r1 with
            | some s => some s
            | none => findEvtOpen rest)
       | none =>
         match sepThenBrace r1 with
         | some s => some s
         | none => findEvtOpen rest)
    | none => findEvtOpen rest

/-- `re.search(r"matchId\s*:\s*(\d+)", text)` with the digits coerced by
`int`. -/
def findMatchId : List Char → Option Int
  | [] => none
  | l@(_ :: rest) =>
    match matchLit ("matchId".toList) l with
    | some r1 =>
      (match r1.dropWhile isWsCh with
       | ':' :: r3 =>
         (let r4 := r3.dropWhile isWsCh
          let ds := r4.takeWhile isDigitCh
          if ds.isEmpty then findMatchId rest else some (digitsToNat ds : Int))
       | _ => findMatchId rest)
    | none => findMatchId rest

/-- The `;\s*var\s` tail of the old-shape fallback pattern. -/
def checkSemiVar (r : List Char) : Bool :=
  match r with
  | ';' :: r2 =>
    (match matchLit ("var".toList) (r2.dropWhile isWsCh) with
     | some (c :: _) => isWsCh c
     | _ => false)
  | _ => false

/-- The lazy group `(\{.*?\})` followed by `;\s*var\s` (DOTALL): the shortest
extension of the accumulated group whose closing brace is followed by the
tail. -/
def lazyClose (acc : List Char) : List Char → Option (List Char)
  | [] => none
  | '}' :: r =>
    if checkSemiVar r then some (acc ++ ['}'])
    else lazyClose (acc ++ ['}']) r
  | c :: r => lazyClose (acc ++ [c]) r

/-- `re.search(r"var\s+matchCentreData\s*=\s*(\{.*?\});\s*var\s", html,
flags=re.DOTALL)`; returns group 1. -/
def findOldMcd : List Char → Option (List Char)
  | [] => none
  | l@(_ :: rest) =>
    match matchLit ("var".toList) l with
    | some (c1 :: r1) =>
      if isWsCh c1 then
        match matchLit ("matchCentreData".toList) (r1.dropWhile isWsCh) with
        | some r2 =>
          (match r2.dropWhile isWsCh with
           | '=' :: r3 =>
             (match r3.dropWhile isWsCh with
              | '{' :: r5 =>
                (match lazyClose ['{'] r5 with
                 | some grp => some grp
                 | none => findOldMcd rest)
              | _ => findOldMcd rest)
           | _ => findOldMcd rest)
        | none => findOldMcd rest
      else findOldMcd rest
    | _ => findOldMcd rest

/-! ### `json.loads` on the extracted substring

A strict JSON parser (double-quoted strings with the standard escapes,
no trailing commas, the leading-zero rule for numbers, exact rational number
values).  Divergences from Python's parser, none of which any theorem
exercises: `NaN`/`Infinity` literals are rejected, raw control characters in
strings are accepted, and `\u` surrogate pairs are not combined. -/

def isJsonWs (c : Char) : Bool :=
  decide (c = ' ') || decide (c = '\t') || decide (c = '\n') || decide (c = '\r')

def hexVal (c : Char) : Option Nat :=
  if isDigitCh c then some (digitVal c)
  else if decide ('a' ≤ c) && decide (c ≤ 'f') then some (c.toNat - 'a'.toNat + 10)
  else if decide ('A' ≤ c) && decide (c ≤ 'F') then some (c.toNat - 'A'.toNat + 10)
  else none

def jsonStringBody (acc : List Char) : List Char → Option (List Char × List Char)
  | [] => none
  | '"' :: r => some (acc, r)
  | '\\' :: r =>
    (match r with
     | [] => none
     | e :: r2 =>
       if e = '"' then jsonStringBody (acc ++ ['"']) r2
       else if e = '\\' then jsonStringBody (acc ++ ['\\']) r2
       else if e = '/' then jsonStringBody (acc ++ ['/']) r2
       else if e = 'b' then jsonStringBody (acc ++ ['\x08']) r2
       else if e = 'f' then jsonStringBody (acc ++ ['\x0c']) r2
       else if e = 'n' then jsonStringBody (acc ++ ['\n']) r2
       else if e = 'r' then jsonStringBody (acc ++ ['\r']) r2
       else if e = 't' then jsonStringBody (acc ++ ['\t']) r2
       else if e = 'u' then
         match r2 with
         | h1 :: h2 :: h3 :: h4 :: r3 =>
           (match hexVal h1, hexVal h2, hexVal h3, hexVal h4 with
            | some a, some b, some c, some d =>
              jsonStringBody (acc ++ [Char.ofNat (((a * 16 + b) * 16 + c) * 16 + d)]) r3
            | _, _, _, _ => none)
         | _ => none
       else none)
  | c :: r => jsonStringBody (acc ++ [c]) r

/-- `dict[key] = value` during JSON object construction: Python keeps the
first position of a duplicate key and its last value. -/
def objUpsert (kvs : List (String × JVal)) (k : String) (v : JVal) :
    List (String × JVal) :=
  if kvs.any (fun p => decide (p.1 = k)) then
    kvs.map (fun p => if p.1 = k then (k, v) else p)
  else kvs ++ [(k, v)]

def mkNum (neg : Bool) (intDs fracDs : List Char) (ex : Int) : JVal :=
  let mant : Int := (digitsToNat (intDs ++ fracDs) : Int)
  let mant := if neg then -mant else mant
  let e2 : Int := ex - (fracDs.length : Int)
  if 0 ≤ e2 then .num (Rat.divInt (mant * ((10 ^ e2.toNat : Nat) : Int)) 1)
  else .num (Rat.divInt mant ((10 ^ (-e2).toNat : Nat) : Int))

def jsonNumber (s : List Char) : Option (JVal × List Char) :=
  let (neg, s1) : Bool × List Char :=
    match s with
    | '-' :: r => (true, r)
    | _ => (false, s)
  match s1 with
  | [] => none
  | c :: _ =>
    if !isDigitCh c then none
    else
      let intDs := s1.takeWhile isDigitCh
      let s2 := s1.dropWhile isDigitCh
      if 1 < intDs.length ∧ intDs.headD '0' = '0' then none
      else
        let fracDs : List Char :=
          match s2 with
          | '.' :: r => r.takeWhile isDigitCh
          | _ => []
        let s3 : List Char :=
          match s2 with
          | '.' :: r => r.dropWhile isDigitCh
          | _ => s2
        if (match s2 with | '.' :: _ => fracDs.isEmpty | _ => false) then none
        else
          match s3 with
          | e :: r =>
            if e = 'e' ∨ e = 'E' then
              let (esgn, r2) : Int × List Char :=
                match r with
                | '+' :: rr => (1, rr)
                | '-' :: rr => (-1, rr)
                | _ => (1, r)
              let eDs := r2.takeWhile isDigitCh
              let r3 := r2.dropWhile isDigitCh
              if eDs.isEmpty then none
              else some (mkNum neg intDs fracDs (esgn * (digitsToNat eDs : Int)), r3)
            else some (mkNum neg intDs fracDs 0, s3)
          | [] => some (mkNum neg intDs fracDs 0, [])

mutual

def jsonVal : Nat → List Char → Option (JVal × List Char)
  | 0, _ => none
  | fuel + 1, s =>
    match s.dropWhile isJsonWs with
    | [] => none
    | '{' :: r =>
      (match r.dropWhile isJsonWs with
       | '}' :: r2 => some (.obj [], r2)
       | _ => jsonMembers fuel r [])
    | '[' :: r =>
      (match r.dropWhile isJsonWs with
       | ']' :: r2 => some (.arr [], r2)
       | _ => jsonElems fuel r [])
    | '"' :: r =>
      (match jsonStringBody [] r with
       | some (cs, r2) => some (.str (String.mk cs), r2)
       | none => none)
    | 't' :: r =>
      (match matchLit ("rue".toList) r with
       | some r2 => some (.bool true, r2)
       | none => none)
    | 'f' :: r =>
      (match matchLit ("alse".toList) r with
       | some r2 => some (.bool false, r2)
       | none => none)
    | 'n' :: r =>
      (match matchLit ("ull".toList) r with
       | some r2 => some (.null, r2)
       | none => none)
    | s' => jsonNumber s'

def jsonMembers : Nat → List Char → List (String × JVal) →
    Option (JVal × List Char)
  | 0, _, _ => none
  | fuel + 1, s, acc =>
    match s.dropWhile isJsonWs with
    | '"' :: r =>
      (match jsonStringBody [] r with
       | some (key, r2) =>
         (match r2.dropWhile isJsonWs with
          | ':' :: r3 =>
            (match jsonVal fuel r3 with
             | some (v, r4) =>
               (match r4.dropWhile isJsonWs with
                | ',' :: r5 => jsonMembers fuel r5 (objUpsert acc (String.mk key) v)
                | '}' :: r5 => some (.obj (objUpsert acc (String.mk key) v), r5)
                | _ => none)
             | none => none)
          | _ => none)
       | none => none)
    | _ => none

def jsonElems : Nat → List Char → List JVal → Option (JVal × List Char)
  | 0, _, _ => none
  | fuel + 1, s, acc =>
    match jsonVal fuel s with
    | some (v, r) =>
      (match r.dropWhile isJsonWs with
       | ',' :: r2 => jsonElems fuel r2 (acc ++ [v])
       | ']' :: r2 => some (.arr (acc ++ [v]), r2)
       | _ => none)
    | none => none

end

/-- `json.loads` on a character list; `none` models a raised
`json.JSONDecodeError`. -/
def json_loads (s : List Char) : Option JVal :=
  match jsonVal (s.length + 1) s with
  | some (v, rest) => if (rest.dropWhile isJsonWs).isEmpty then some v else none
  | none => none

/-- The three exception classes that can escape the extraction path:
`ValueError` from `_extract_balanced_object`, `json.JSONDecodeError` from
`json.loads`, and the `RuntimeError` raised by `process_one_match` when no
`matchCentreData` was found. -/
inductive PyErr where
  | valueError
  | jsonDecodeError
  | runtimeError
deriving DecidableEq

structure Payload where
  matchId : Option Int := none
  matchCentreData : Option JVal := none
  matchCentreEventType : Option JVal := none
  formationIdNameDictionary : Option JVal := none
  scoreTimelineJson : Option JVal := none
  formationsTimelineJson : Option JVal := none

/-- Balanced extraction followed by `json.loads` (the pattern of lines
195-207): imbalance raises `ValueError`, a parse failure raises
`JSONDecodeError`. -/
def extractParse (sfx : List Char) : Except PyErr JVal :=
  match extractBalAt sfx with
  | none => .error .valueError
  | some raw =>
    match json_loads raw with
    | none => .error .jsonDecodeError
    | some v => .ok v

/-- The same for an optional marker: a missing marker is not an error. -/
def optExtractParse (found : Option (List Char)) : Except PyErr (Option JVal) :=
  match found with
  | none => .ok none
  | some sfx =>
    match extractParse sfx with
    | .error e => .error e
    | .ok v => .ok (some v)

/-- One timeline key (lines 209-236): the inline bracket-balanced scan with
`json.loads` wrapped in `try/except pass` — never an error. -/
def timelineOf (args : List Char) (key : List Char) : Option JVal :=
  match findKeyOpen key '[' args with
  | none => none
  | some sfx =>
    match extractBalArrAt sfx with
    | none => none
    | some arr => json_loads arr

/-- The old-shape fallback (lines 239-242), entered when no `matchCentreData`
was found: parse the lazily-matched group, or leave the payload as is when
the pattern is absent. -/
def oldFallback (html : List Char) (p : Payload) : Except PyErr Payload :=
  match findOldMcd html with
  | none => .ok p
  | some grp =>
    match json_loads grp with
    | none => .error .jsonDecodeError
    | some v => .ok { p with matchCentreData := some v }

/-- `load_payload_from_html_text` (lines 174-244). -/
def load_payload_from_html_text (html : List Char) : Except PyErr Payload :=
  match findArgsStart html with
  | some sfx =>
    (match extractBalAt sfx with
     | none => .error .valueError
     | some args_obj =>
       match optExtractParse (findKeyOpen ("matchCentreData".toList) '{' args_obj) with
       | .error e => .error e
       | .ok mcd =>
         match optExtractParse (findEvtOpen args_obj) with
         | .error e => .error e
         | .ok evt =>
           match optExtractParse
               (findKeyOpen ("formationIdNameDictionary".toList) '{' args_obj) with
           | .error e => .error e
           | .ok fdict =>
             let p : Payload :=
               { matchId := findMatchId args_obj, matchCentreData := mcd,
                 matchCentreEventType := evt, formationIdNameDictionary := fdict,
                 scoreTimelineJson := timelineOf args_obj ("scoreTimelineJson".toList),
                 formationsTimelineJson :=
                   timelineOf args_obj ("formationsTimelineJson".toList) }
             match mcd with
             | some _ => .ok p
             | none => oldFallback html p)
  | none => oldFallback html {}

/-- The payload check of `process_one_match` (lines 867-869): a payload with
no `matchCentreData` raises `RuntimeError`. -/
def extract_payload_checked (html : List Char) : Except PyErr Payload :=
  match load_payload_from_html_text html with
  | .error e => .error e
  | .ok p => if p.matchCentreData.isNone then .error .runtimeError else .ok p

/-! ### Claim C3: the failure taxonomy -/

/-- Claim C3 (amended): when the marker is absent after both the primary and
the older fallback strategy, extraction fails with the distinguished
not-found error (the source's `RuntimeError`, the spec's `PayloadNotFound`);
when the braces never balance it fails with a distinct malformed-literal
error (the source's `ValueError`, the spec's `MalformedLiteral`); when
parsing the extracted `matchCentreData` substring fails, the parse error
itself propagates (`json.JSONDecodeError`) — fatal, but a third class
distinct from the not-found error, not a `PayloadNotFound` wrapping it. -/
theorem payload_failure_taxonomy (html : List Char) :
    (findArgsStart html = none → findOldMcd html = none →
      extract_payload_checked html = .error .runtimeError)
  ∧ (∀ sfx, findArgsStart html = some sfx → extractBalAt sfx = none →
      extract_payload_checked html = .error .valueError)
  ∧ (∀ sfx args s2 raw, findArgsStart html = some sfx →
      extractBalAt sfx = some args →
      findKeyOpen ("matchCentreData".toList) '{' args = some s2 →
      extractBalAt s2 = some raw → json_loads raw = none →
      extract_payload_checked html = .error .jsonDecodeError) := by
  refine ⟨?_, ?_, ?_⟩
  · intro h1 h2
    unfold extract_payload_checked load_payload_from_html_text oldFallback
    rw [h1, h2]
    rfl
  · intro sfx h1 h2
    unfold extract_payload_checked load_payload_from_html_text
    simp only [h1, h2]
  · intro sfx args s2 raw h1 h2 h3 h4 h5
    unfold extract_payload_checked load_payload_from_html_text
    simp only [h1, h2, h3]
    unfold optExtractParse extractParse
    simp only [h4, h5]

def c3badHtml : List Char :=
  "require.config.params[\"args\"] = {matchCentreData: {1} }".toList

/-- Claim C3 counterexample: with the marker present, braces balanced, but the
extracted substring `{1}` unparseable, the run fails with the bare parse
error, which is a different class from the not-found error raised when the
marker is absent — the parse failure is not converted into the not-found
(`PayloadNotFound`) class. -/
theorem payload_parse_error_cex :
    extract_payload_checked c3badHtml = .error .jsonDecodeError
  ∧ extract_payload_checked ("hello".toList) = .error .runtimeError
  ∧ PyErr.jsonDecodeError ≠ PyErr.runtimeError :=
  ⟨rfl, rfl, by decide⟩

/-- Witness for C3 at concrete inputs: an input with no marker at all fails
with the not-found error; an input whose args object never closes fails with
the malformed-literal error. -/
theorem payload_failure_taxonomy_witness :
    findArgsStart ("hello".toList) = none
  ∧ extract_payload_checked ("hello".toList) = .error .runtimeError
  ∧ extract_payload_checked ("require.config.params[\"args\"] = \x7b".toList)
      = .error .valueError := by
  refine ⟨rfl, ?_, ?_⟩
  · exact (payload_failure_taxonomy ("hello".toList)).1 rfl rfl
  · exact (payload_failure_taxonomy
      ("require.config.params[\"args\"] = \x7b".toList)).2.1 ("\x7b".toList) rfl rfl

end WhoscoredMC
